import Mathlib

/-!
Shallow embedding of the chain orchestration engine of
`src/onboard_async/chain_tasks.py` (classes `ChainTracker`, `ChainedTasks`,
`TaskConfig`, `ChainData`) and the status routes, together with proofs of
the behavioural properties claimed for it.

Conventions of the embedding:
* a Python `dict` (insertion ordered) becomes an association list
  `List (String × α)`; assignment `d[k] = v` updates the entry in place when
  the key exists and appends otherwise (`dictSet`), exactly as in CPython;
* `datetime.now()` becomes a `Nat` tick threaded through the state;
* the external work functions (random cloud lookups) are oracles
  `Nat → WorkOutcome` giving the outcome of the k-th invocation, and an
  `on_complete` callback is an oracle `Nat → Bool` telling whether its k-th
  invocation raises;
* ghost counters (`invoked`, `cb_fired`, `missing_hits`) record how often a
  work function was actually invoked, how often a callback fired, and how
  often an attempt aborted on a missing required parameter.  They are pure
  instrumentation: no executed branch reads them.
-/

namespace OnboardAsync

/-- Lookup in an association list modelling a Python dict. -/
def dictGet {α : Type} : List (String × α) → String → Option α
  | [], _ => none
  | (k, v) :: rest, key => if k = key then some v else dictGet rest key

/-- Assignment `d[k] = v` on a Python dict: update in place if the key is
present, append otherwise (CPython keeps the original insertion position). -/
def dictSet {α : Type} : List (String × α) → String → α → List (String × α)
  | [], key, v => [(key, v)]
  | (k, w) :: rest, key, v =>
      if k = key then (key, v) :: rest else (k, w) :: dictSet rest key v

/-- One entry of `completed_tasks` (chain_tasks.py lines 68-72). -/
structure CompletedEntry where
  completion_time : Nat
  result_status : String
  result_data : Option String
  attempts : Nat
deriving DecidableEq, Repr

/-- A chain record as created by `ChainTracker.start_chain` and mutated by
the other tracker methods.  Keys that the Python dict acquires only later
(`end_time`, `error`, `failed_task`, `attempts_at_failure`) are `Option`
fields that are `none` exactly while the key is absent. -/
structure ChainRecord where
  status : String
  start_time : Nat
  current_task : Option String
  task_sequence : List String
  completed_tasks : List (String × CompletedEntry)
  total_tasks : Nat
  last_updated : Nat
  attempts : List (String × Nat)
  end_time : Option Nat
  error : Option String
  failed_task : Option String
  attempts_at_failure : Option Nat
deriving DecidableEq, Repr

/-- The keys present in the Python record dict: the eight keys written by
`start_chain` plus those added by `complete_task` / `fail_chain` when the
corresponding `Option` field is set. -/
def recordKeys (r : ChainRecord) : List String :=
  ["status", "start_time", "current_task", "task_sequence",
   "completed_tasks", "total_tasks", "last_updated", "attempts"]
  ++ (if r.end_time.isSome then ["end_time"] else [])
  ++ (if r.error.isSome then ["error"] else [])
  ++ (if r.failed_task.isSome then ["failed_task"] else [])
  ++ (if r.attempts_at_failure.isSome then ["attempts_at_failure"] else [])

/-- `ChainTracker._chains`: the registry, a dict from chain id to record. -/
def Tracker : Type := List (String × ChainRecord)

/-- The record freshly written by `start_chain` (chain_tasks.py 45-56). -/
def freshRecord (seq : List String) (now : Nat) : ChainRecord :=
  { status := "running"
    start_time := now
    current_task := none
    task_sequence := seq
    completed_tasks := []
    total_tasks := seq.length
    last_updated := now
    attempts := []
    end_time := none
    error := none
    failed_task := none
    attempts_at_failure := none }

/-- `ChainTracker.start_chain` (chain_tasks.py 45-56): unconditional dict
assignment, no uniqueness check. -/
def start_chain (t : Tracker) (chain_id : String) (seq : List String)
    (now : Nat) : Tracker :=
  dictSet t chain_id (freshRecord seq now)

/-- `ChainTracker.update_attempts` (chain_tasks.py 58-63): guarded by
`chain_id in self._chains`; initialises the counter to 0 then adds 1. -/
def update_attempts (t : Tracker) (chain_id task_name : String) : Tracker :=
  match dictGet t chain_id with
  | none => t
  | some r =>
      let n := (dictGet r.attempts task_name).getD 0 + 1
      dictSet t chain_id { r with attempts := dictSet r.attempts task_name n }

/-- The result dict stored by `complete_task`: a status and an optional
payload (`{status: Y, data: ...}` or `{status: Y}`). -/
structure CompResult where
  status : String
  data : Option String
deriving DecidableEq, Repr

/-- The `completed_tasks` entry written by `complete_task`
(chain_tasks.py 68-72). -/
def completedEntry (task_name : String) (result : CompResult) (now : Nat)
    (r : ChainRecord) : CompletedEntry :=
  { completion_time := now
    result_status := result.status
    result_data := result.data
    attempts := (dictGet r.attempts task_name).getD 0 }

/-- The record update performed by `complete_task` on an existing record
(chain_tasks.py 68-75): write the entry, and when `completed_tasks` now
has `total_tasks` entries set status `completed` and an `end_time` — with
no check that the record is still running. -/
def completeRec (task_name : String) (result : CompResult) (now : Nat)
    (r : ChainRecord) : ChainRecord :=
  if (dictSet r.completed_tasks task_name
        (completedEntry task_name result now r)).length = r.total_tasks then
    { r with
        completed_tasks := dictSet r.completed_tasks task_name
          (completedEntry task_name result now r),
        status := "completed", end_time := some now }
  else
    { r with
        completed_tasks := dictSet r.completed_tasks task_name
          (completedEntry task_name result now r) }

/-- `ChainTracker.complete_task` (chain_tasks.py 65-75): guarded by the
membership test, then the update of `completeRec`. -/
def complete_task (t : Tracker) (chain_id task_name : String)
    (result : CompResult) (now : Nat) : Tracker :=
  match dictGet t chain_id with
  | none => t
  | some r => dictSet t chain_id (completeRec task_name result now r)

/-- `ChainTracker.fail_chain` (chain_tasks.py 77-86): unconditionally
overwrites status, error, failed_task, end_time and the attempts snapshot
whenever the id is registered — there is no terminal-state check. -/
def fail_chain (t : Tracker) (chain_id error failed_task : String)
    (now : Nat) : Tracker :=
  match dictGet t chain_id with
  | none => t
  | some r =>
      dictSet t chain_id
        { r with status := "failed"
                 error := some error
                 failed_task := some failed_task
                 end_time := some now
                 attempts_at_failure :=
                   some ((dictGet r.attempts failed_task).getD 0) }

/-- `ChainTracker.get_chain_status` (chain_tasks.py 88-90): a plain dict
lookup, returning the stored record as is. -/
def get_chain_status (t : Tracker) (chain_id : String) : Option ChainRecord :=
  dictGet t chain_id

/-- The `/chain-status/` route (chain_tasks.py 253-258): 404 when the
lookup returns nothing, otherwise the record itself. -/
def get_chain_status_route (t : Tracker) (chain_id : String) :
    Except Nat ChainRecord :=
  match get_chain_status t chain_id with
  | none => Except.error 404
  | some r => Except.ok r

/-! ### Association-list lemmas -/

theorem dictGet_dictSet_self {α : Type} (l : List (String × α)) (k : String)
    (v : α) : dictGet (dictSet l k v) k = some v := by
  induction l with
  | nil => simp [dictGet, dictSet]
  | cons hd tl ih =>
      obtain ⟨k', v'⟩ := hd
      by_cases h : k' = k
      · simp [dictGet, dictSet, h]
      · simp [dictGet, dictSet, h, ih]

theorem dictGet_dictSet_ne {α : Type} (l : List (String × α)) (k k' : String)
    (v : α) (h : k' ≠ k) : dictGet (dictSet l k v) k' = dictGet l k' := by
  induction l with
  | nil => simp [dictGet, dictSet, Ne.symm h]
  | cons hd tl ih =>
      obtain ⟨k₀, v₀⟩ := hd
      by_cases h₀ : k₀ = k
      · subst h₀
        simp [dictGet, dictSet, Ne.symm h]
      · simp [dictGet, dictSet, h₀, ih]

theorem dictGet_dictSet_isSome {α : Type} (l : List (String × α))
    (k k' : String) (v : α) (h : (dictGet l k').isSome) :
    (dictGet (dictSet l k v) k').isSome := by
  by_cases e : k' = k
  · subst e; simp [dictGet_dictSet_self]
  · rwa [dictGet_dictSet_ne l k k' v e]

theorem mapFst_dictSet {α : Type} (l : List (String × α)) (k : String)
    (v : α) :
    (dictSet l k v).map Prod.fst =
      if k ∈ l.map Prod.fst then l.map Prod.fst
      else l.map Prod.fst ++ [k] := by
  induction l with
  | nil => simp [dictSet]
  | cons hd tl ih =>
      obtain ⟨k₀, v₀⟩ := hd
      by_cases h : k₀ = k
      · subst h; simp [dictSet]
      · simp only [dictSet, if_neg h, List.map_cons, List.mem_cons]
        rw [ih]
        by_cases hm : k ∈ tl.map Prod.fst
        · simp [hm, Ne.symm h]
        · simp [hm, Ne.symm h]

theorem mem_mapFst_dictSet_self {α : Type} (l : List (String × α))
    (k : String) (v : α) : k ∈ (dictSet l k v).map Prod.fst := by
  rw [mapFst_dictSet]
  by_cases h : k ∈ l.map Prod.fst <;> simp [h]

/-! ### The executor (`ChainedTasks`, chain_tasks.py 100-185) -/

/-- What one invocation of a task work function does (chain_tasks.py
120-151): return a `(status, data)` pair, return a bare status value, or
raise.  The concrete lookups in the repository return either a pair with
status Y carrying a payload, or a bare Y / N. -/
inductive WorkOutcome where
  | raised : WorkOutcome
  | pairRes : String → Option String → WorkOutcome
  | bareRes : String → WorkOutcome

/-- `TaskConfig` (chain_tasks.py 16-28).  `func` is the outcome oracle for
the k-th work invocation; `on_complete` is `none` when no callback is
configured, otherwise an oracle telling whether the k-th callback
invocation raises. -/
structure TaskConfig where
  name : String
  func : Nat → WorkOutcome
  retry_interval : Nat := 1
  max_attempts : Nat := 5
  required_params : List String := []
  on_complete : Option (Nat → Bool) := none

/-- The state threaded through one `ChainedTasks` execution: the shared
registry, the per-chain `ChainData`, the clock, and three ghost counters
(work invocations, callback firings, attempts aborted on a missing
required parameter) that no executed branch reads. -/
structure ExecState where
  tracker : Tracker
  chain_data : List (String × String)
  clock : Nat
  invoked : List (String × Nat)
  cb_fired : List (String × Nat)
  missing_hits : List (String × Nat)

/-- Ghost-counter increment. -/
def bumpCount (l : List (String × Nat)) (k : String) : List (String × Nat) :=
  dictSet l k ((dictGet l k).getD 0 + 1)

/-- Resolution of `required_params` from `ChainData` (chain_tasks.py
113-118): stops at the first name with no value, which in the source raises
inside the `try` block before the work function is called. -/
def resolveParams (ps : List String) (cd : List (String × String)) :
    Option (List (String × String)) :=
  match ps with
  | [] => some []
  | p :: rest =>
      match dictGet cd p with
      | none => none
      | some v => (resolveParams rest cd).map (fun l => (p, v) :: l)

/-- The dict returned by `execute_task`.  On success the source also
splats `task_params` into it; on failure only status, task and attempts
are present. -/
structure ResultDict where
  status : String
  task : String
  attempts : Nat
  data : Option String := none
  project_id : String := ""
  params : List (String × String) := []
deriving DecidableEq, Repr

/-- Start of one attempt (chain_tasks.py 109-110): the registry counter
is incremented first, before parameter resolution or the work call. -/
def stepAttempt (cfg : TaskConfig) (chain_id : String) (s : ExecState) :
    ExecState :=
  { s with tracker := update_attempts s.tracker chain_id cfg.name,
           clock := s.clock + 1 }

/-- Ghost marker: this attempt aborted at chain_tasks.py 117 on a missing
required parameter, before the work function was called. -/
def stepMissing (cfg : TaskConfig) (s : ExecState) : ExecState :=
  { s with missing_hits := bumpCount s.missing_hits cfg.name }

/-- Ghost marker: the work function was invoked (chain_tasks.py 120). -/
def stepInvoke (cfg : TaskConfig) (s : ExecState) : ExecState :=
  { s with invoked := bumpCount s.invoked cfg.name }

/-- `self.chain_data.set(task.name, data)` (chain_tasks.py 126). -/
def stepData (cfg : TaskConfig) (d : String) (s : ExecState) : ExecState :=
  { s with chain_data := dictSet s.chain_data cfg.name d }

/-- The `complete_task` registry call on success (chain_tasks.py 135/148). -/
def stepComplete (cfg : TaskConfig) (chain_id : String) (data : Option String)
    (s : ExecState) : ExecState :=
  { s with tracker := complete_task s.tracker chain_id cfg.name
             { status := "Y", data := data } s.clock,
           clock := s.clock + 1 }

/-- Ghost marker: the `on_complete` callback was invoked (chain_tasks.py
137/150). -/
def stepCb (cfg : TaskConfig) (s : ExecState) : ExecState :=
  { s with cb_fired := bumpCount s.cb_fired cfg.name }

/-- The `fail_chain` registry call on exhaustion (chain_tasks.py 163). -/
def stepFail (cfg : TaskConfig) (chain_id : String) (attempts : Nat)
    (s : ExecState) : ExecState :=
  { s with
      tracker := fail_chain s.tracker chain_id
        ("Task " ++ cfg.name ++ " failed after " ++ toString attempts ++
          " attempts") cfg.name s.clock,
      clock := s.clock + 1 }

/-- The retry loop of `execute_task` (chain_tasks.py 106-164), with
`fuel = max_attempts - attempts` remaining iterations.  Each iteration
increments the attempt counter first; a missing required parameter, a
raised work function, a non-Y result and a raised `on_complete` callback
all fall through to the next iteration; success returns immediately after
`complete_task` and a non-raising callback; exhaustion calls `fail_chain`
with the standard message. -/
def runAttempts (cfg : TaskConfig) (chain_id project_id : String) :
    Nat → Nat → ExecState → ResultDict × ExecState
  | 0, attempts, s =>
      ({ status := "N", task := cfg.name, attempts := attempts },
       stepFail cfg chain_id attempts s)
  | fuel + 1, attempts, s =>
      let attempts := attempts + 1
      let s := stepAttempt cfg chain_id s
      match resolveParams cfg.required_params s.chain_data with
      | none =>
          -- the raise at chain_tasks.py 117, caught at 156: one attempt
          -- consumed, the work function never called
          runAttempts cfg chain_id project_id fuel attempts
            (stepMissing cfg s)
      | some ps =>
          let k := (dictGet s.invoked cfg.name).getD 0
          let s := stepInvoke cfg s
          match cfg.func k with
          | WorkOutcome.raised =>
              runAttempts cfg chain_id project_id fuel attempts s
          | WorkOutcome.pairRes st data =>
              if st = "Y" then
                let s :=
                  match data with
                  | some d => stepData cfg d s
                  | none => s
                let s := stepComplete cfg chain_id data s
                let rd : ResultDict :=
                  { status := "Y", task := cfg.name, attempts := attempts,
                    data := data, project_id := project_id, params := ps }
                match cfg.on_complete with
                | none => (rd, s)
                | some cb =>
                    let j := (dictGet s.cb_fired cfg.name).getD 0
                    let s := stepCb cfg s
                    if cb j then
                      runAttempts cfg chain_id project_id fuel attempts s
                    else (rd, s)
              else runAttempts cfg chain_id project_id fuel attempts s
          | WorkOutcome.bareRes st =>
              if st = "Y" then
                let s := stepComplete cfg chain_id none s
                let rd : ResultDict :=
                  { status := "Y", task := cfg.name, attempts := attempts,
                    project_id := project_id, params := ps }
                match cfg.on_complete with
                | none => (rd, s)
                | some cb =>
                    let j := (dictGet s.cb_fired cfg.name).getD 0
                    let s := stepCb cfg s
                    if cb j then
                      runAttempts cfg chain_id project_id fuel attempts s
                    else (rd, s)
              else runAttempts cfg chain_id project_id fuel attempts s

/-- `ChainedTasks.execute_task` (chain_tasks.py 106-164): the loop starts
with `attempts = 0` and runs while `attempts < max_attempts`. -/
def execute_task (cfg : TaskConfig) (project_id chain_id : String)
    (s : ExecState) : ResultDict × ExecState :=
  runAttempts cfg chain_id project_id cfg.max_attempts 0 s

/-- The loop of `execute_chain` (chain_tasks.py 170-175): run the tasks in
order, stop at the first result with status N, append every other result.
The final `Bool` is ghost instrumentation: `true` iff the loop stopped on a
failed task. -/
def execGo (chain_id project_id : String) :
    List TaskConfig → ExecState → List ResultDict →
      List ResultDict × ExecState × Bool
  | [], s, acc => (acc, s, false)
  | t :: ts, s, acc =>
      let p := execute_task t project_id chain_id s
      if p.1.status = "N" then (acc, p.2, true)
      else execGo chain_id project_id ts p.2 (acc ++ [p.1])

/-- `ChainedTasks.execute_chain` (chain_tasks.py 166-185). -/
def execute_chain (tasks : List TaskConfig) (chain_id project_id : String)
    (s : ExecState) : List ResultDict × ExecState :=
  let r := execGo chain_id project_id tasks s []
  (r.1, r.2.1)

/-- The state at the start of one chain, right after the trigger route
registered the task names (chain_tasks.py 239-245). -/
def startState (chain_id : String) (seq : List String) (now : Nat) :
    ExecState :=
  { tracker := start_chain [] chain_id seq now
    chain_data := []
    clock := now + 1
    invoked := []
    cb_fired := []
    missing_hits := [] }

/-! ### Projections used by the statements -/

/-- Registry attempt counter of one task in one chain (0 when absent,
matching `.get(task_name, 0)` / the dict initialisation in the source). -/
def attemptsIn (t : Tracker) (chain_id task_name : String) : Nat :=
  ((dictGet t chain_id).map
    (fun r => (dictGet r.attempts task_name).getD 0)).getD 0

/-- Registry attempt counter, read off an execution state. -/
def attemptsCount (s : ExecState) (chain_id task_name : String) : Nat :=
  attemptsIn s.tracker chain_id task_name

/-- Ghost count of actual work-function invocations of one task. -/
def invokedCount (s : ExecState) (task_name : String) : Nat :=
  (dictGet s.invoked task_name).getD 0

/-- Ghost count of attempts aborted on a missing required parameter. -/
def missingCount (s : ExecState) (task_name : String) : Nat :=
  (dictGet s.missing_hits task_name).getD 0

/-- Ghost count of `on_complete` firings of one task. -/
def cbCount (s : ExecState) (task_name : String) : Nat :=
  (dictGet s.cb_fired task_name).getD 0

/-- Status field of one chain record, if registered. -/
def statusIn (t : Tracker) (chain_id : String) : Option String :=
  (dictGet t chain_id).map ChainRecord.status

/-- Status field, read off an execution state. -/
def statusOf (s : ExecState) (chain_id : String) : Option String :=
  statusIn s.tracker chain_id

/-- The registered task sequence of one chain. -/
def seqIn (t : Tracker) (chain_id : String) : List String :=
  ((dictGet t chain_id).map ChainRecord.task_sequence).getD []

/-- The registered task sequence, read off an execution state. -/
def seqOf (s : ExecState) (chain_id : String) : List String :=
  seqIn s.tracker chain_id

/-- The keys of `completed_tasks` of one chain, in insertion order. -/
def keysIn (t : Tracker) (chain_id : String) : List String :=
  ((dictGet t chain_id).map
    (fun r => r.completed_tasks.map Prod.fst)).getD []

/-- Completed-task keys, read off an execution state. -/
def completedKeys (s : ExecState) (chain_id : String) : List String :=
  keysIn s.tracker chain_id

/-- A chain id with a registered record. -/
def regIn (t : Tracker) (chain_id : String) : Prop :=
  (dictGet t chain_id).isSome

instance (t : Tracker) (chain_id : String) : Decidable (regIn t chain_id) := by
  unfold regIn; infer_instance

/-- A chain id registered in an execution state. -/
def registered (s : ExecState) (chain_id : String) : Prop :=
  regIn s.tracker chain_id

instance (s : ExecState) (chain_id : String) :
    Decidable (registered s chain_id) := by
  unfold registered; infer_instance

/-! ### Field equations of the step functions -/

theorem stepAttempt_chain_data (cfg : TaskConfig) (cid : String)
    (s : ExecState) : (stepAttempt cfg cid s).chain_data = s.chain_data := rfl

theorem stepAttempt_invoked (cfg : TaskConfig) (cid : String)
    (s : ExecState) : (stepAttempt cfg cid s).invoked = s.invoked := rfl

theorem stepAttempt_cb_fired (cfg : TaskConfig) (cid : String)
    (s : ExecState) : (stepAttempt cfg cid s).cb_fired = s.cb_fired := rfl

theorem stepInvoke_cb_fired (cfg : TaskConfig) (s : ExecState) :
    (stepInvoke cfg s).cb_fired = s.cb_fired := rfl

theorem stepData_cb_fired (cfg : TaskConfig) (d : String) (s : ExecState) :
    (stepData cfg d s).cb_fired = s.cb_fired := rfl

theorem stepComplete_cb_fired (cfg : TaskConfig) (cid : String)
    (data : Option String) (s : ExecState) :
    (stepComplete cfg cid data s).cb_fired = s.cb_fired := rfl

/-! ### Characterizations of the tracker mutators -/

theorem dictGet_update_attempts (t : Tracker) (cid nm cid' : String) :
    dictGet (update_attempts t cid nm) cid' =
      if cid' = cid then
        (dictGet t cid).map
          (fun r => { r with attempts := bumpCount r.attempts nm })
      else dictGet t cid' := by
  unfold update_attempts
  cases h : dictGet t cid with
  | none =>
      by_cases e : cid' = cid
      · subst e; simp [h]
      · simp [e]
  | some r =>
      by_cases e : cid' = cid
      · subst e; simp [dictGet_dictSet_self, h, bumpCount]
      · simp [e, dictGet_dictSet_ne _ _ _ _ e]

theorem dictGet_fail_chain (t : Tracker) (cid e f : String) (now : Nat)
    (cid' : String) :
    dictGet (fail_chain t cid e f now) cid' =
      if cid' = cid then
        (dictGet t cid).map (fun r =>
          { r with status := "failed", error := some e,
                   failed_task := some f, end_time := some now,
                   attempts_at_failure :=
                     some ((dictGet r.attempts f).getD 0) })
      else dictGet t cid' := by
  unfold fail_chain
  cases h : dictGet t cid with
  | none =>
      by_cases he : cid' = cid
      · subst he; simp [h]
      · simp [he]
  | some r =>
      by_cases he : cid' = cid
      · subst he; simp [dictGet_dictSet_self, h]
      · simp [he, dictGet_dictSet_ne _ _ _ _ he]

theorem dictGet_complete_task (t : Tracker) (cid nm : String)
    (res : CompResult) (now : Nat) (cid' : String) :
    dictGet (complete_task t cid nm res now) cid' =
      if cid' = cid then (dictGet t cid).map (completeRec nm res now)
      else dictGet t cid' := by
  unfold complete_task
  cases h : dictGet t cid with
  | none =>
      by_cases he : cid' = cid
      · subst he; simp [h]
      · simp [he]
  | some r =>
      by_cases he : cid' = cid
      · subst he; simp [dictGet_dictSet_self, h]
      · simp [he, dictGet_dictSet_ne _ _ _ _ he]

theorem completeRec_task_sequence (nm : String) (res : CompResult)
    (now : Nat) (r : ChainRecord) :
    (completeRec nm res now r).task_sequence = r.task_sequence := by
  unfold completeRec; split <;> rfl

theorem completeRec_attempts (nm : String) (res : CompResult)
    (now : Nat) (r : ChainRecord) :
    (completeRec nm res now r).attempts = r.attempts := by
  unfold completeRec; split <;> rfl

theorem completeRec_completed_tasks (nm : String) (res : CompResult)
    (now : Nat) (r : ChainRecord) :
    (completeRec nm res now r).completed_tasks =
      dictSet r.completed_tasks nm (completedEntry nm res now r) := by
  unfold completeRec; split <;> rfl

/-! ### Preservation lemmas for the tracker mutators -/

theorem regIn_update_attempts (t : Tracker) (cid nm cid' : String)
    (h : regIn t cid') : regIn (update_attempts t cid nm) cid' := by
  unfold regIn at *
  rw [dictGet_update_attempts]
  by_cases e : cid' = cid
  · subst e; simpa using h
  · simpa [e] using h

theorem regIn_complete_task (t : Tracker) (cid nm : String)
    (res : CompResult) (now : Nat) (cid' : String)
    (h : regIn t cid') : regIn (complete_task t cid nm res now) cid' := by
  unfold regIn at *
  rw [dictGet_complete_task]
  by_cases e : cid' = cid
  · subst e; simpa using h
  · simpa [e] using h

theorem regIn_fail_chain (t : Tracker) (cid e f : String) (now : Nat)
    (cid' : String) (h : regIn t cid') :
    regIn (fail_chain t cid e f now) cid' := by
  unfold regIn at *
  rw [dictGet_fail_chain]
  by_cases he : cid' = cid
  · subst he; simpa using h
  · simpa [he] using h

theorem seqIn_update_attempts (t : Tracker) (cid nm cid' : String) :
    seqIn (update_attempts t cid nm) cid' = seqIn t cid' := by
  unfold seqIn
  rw [dictGet_update_attempts]
  by_cases e : cid' = cid
  · subst e; cases dictGet t cid' <;> simp
  · simp [e]

theorem seqIn_complete_task (t : Tracker) (cid nm : String)
    (res : CompResult) (now : Nat) (cid' : String) :
    seqIn (complete_task t cid nm res now) cid' = seqIn t cid' := by
  unfold seqIn
  rw [dictGet_complete_task]
  by_cases e : cid' = cid
  · subst e; cases dictGet t cid' <;> simp [completeRec_task_sequence]
  · simp [e]

theorem seqIn_fail_chain (t : Tracker) (cid e f : String) (now : Nat)
    (cid' : String) :
    seqIn (fail_chain t cid e f now) cid' = seqIn t cid' := by
  unfold seqIn
  rw [dictGet_fail_chain]
  by_cases he : cid' = cid
  · subst he; cases dictGet t cid' <;> simp
  · simp [he]

theorem statusIn_update_attempts (t : Tracker) (cid nm cid' : String) :
    statusIn (update_attempts t cid nm) cid' = statusIn t cid' := by
  unfold statusIn
  rw [dictGet_update_attempts]
  by_cases e : cid' = cid
  · subst e; cases dictGet t cid' <;> simp
  · simp [e]

theorem attemptsIn_update_attempts_self (t : Tracker) (cid nm : String)
    (h : regIn t cid) :
    attemptsIn (update_attempts t cid nm) cid nm = attemptsIn t cid nm + 1 := by
  unfold regIn at h
  obtain ⟨r, hr⟩ := Option.isSome_iff_exists.mp h
  unfold attemptsIn
  rw [dictGet_update_attempts, if_pos rfl, hr]
  simp [bumpCount, dictGet_dictSet_self]

theorem attemptsIn_complete_task (t : Tracker) (cid nm : String)
    (res : CompResult) (now : Nat) (cid' nm' : String) :
    attemptsIn (complete_task t cid nm res now) cid' nm' =
      attemptsIn t cid' nm' := by
  unfold attemptsIn
  rw [dictGet_complete_task]
  by_cases e : cid' = cid
  · subst e; cases dictGet t cid' <;> simp [completeRec_attempts]
  · simp [e]

theorem attemptsIn_fail_chain (t : Tracker) (cid e f : String) (now : Nat)
    (cid' nm' : String) :
    attemptsIn (fail_chain t cid e f now) cid' nm' = attemptsIn t cid' nm' := by
  unfold attemptsIn
  rw [dictGet_fail_chain]
  by_cases he : cid' = cid
  · subst he; cases dictGet t cid' <;> simp
  · simp [he]

theorem keysIn_update_attempts (t : Tracker) (cid nm cid' : String) :
    keysIn (update_attempts t cid nm) cid' = keysIn t cid' := by
  unfold keysIn
  rw [dictGet_update_attempts]
  by_cases e : cid' = cid
  · subst e; cases dictGet t cid' <;> simp
  · simp [e]

theorem keysIn_fail_chain (t : Tracker) (cid e f : String) (now : Nat)
    (cid' : String) :
    keysIn (fail_chain t cid e f now) cid' = keysIn t cid' := by
  unfold keysIn
  rw [dictGet_fail_chain]
  by_cases he : cid' = cid
  · subst he; cases dictGet t cid' <;> simp
  · simp [he]

theorem keysIn_complete_task_self (t : Tracker) (cid nm : String)
    (res : CompResult) (now : Nat) (h : regIn t cid) :
    keysIn (complete_task t cid nm res now) cid =
      if nm ∈ keysIn t cid then keysIn t cid else keysIn t cid ++ [nm] := by
  unfold regIn at h
  obtain ⟨r, hr⟩ := Option.isSome_iff_exists.mp h
  unfold keysIn
  rw [dictGet_complete_task, if_pos rfl, hr]
  simp [completeRec_completed_tasks, mapFst_dictSet]

/-- After `complete_task` the task name is among the completed keys. -/
theorem mem_keysIn_complete_task_self (t : Tracker) (cid nm : String)
    (res : CompResult) (now : Nat) (h : regIn t cid) :
    nm ∈ keysIn (complete_task t cid nm res now) cid := by
  rw [keysIn_complete_task_self t cid nm res now h]
  by_cases e : nm ∈ keysIn t cid <;> simp [e]

/-- Failure fields written by `fail_chain` on a registered record. -/
theorem fail_chain_fields (t : Tracker) (cid e f : String) (now : Nat)
    (h : regIn t cid) :
    statusIn (fail_chain t cid e f now) cid = some "failed" ∧
    ((dictGet (fail_chain t cid e f now) cid).bind ChainRecord.error) =
      some e ∧
    ((dictGet (fail_chain t cid e f now) cid).bind ChainRecord.failed_task) =
      some f := by
  unfold regIn at h
  obtain ⟨r, hr⟩ := Option.isSome_iff_exists.mp h
  unfold statusIn
  rw [dictGet_fail_chain, if_pos rfl, hr]
  simp

/-- No record ever carries a `progress` key: the dict written by
`start_chain` and mutated by the other tracker methods only ever holds the
twelve keys enumerated in `recordKeys`. -/
theorem progress_not_in_recordKeys (r : ChainRecord) :
    (recordKeys r).contains "progress" = false := by
  unfold recordKeys
  split <;> split <;> split <;> split <;> decide

/-- A terminal record used by the C1 counterexample: one-task chain whose
single task completed, so status is `completed` and `end_time` is set. -/
def c1terminal : Tracker :=
  complete_task (start_chain [] "c" ["t"] 0) "c" "t"
    { status := "Y", data := none } 5

/-- The record stored in `c1terminal` under id `c`. -/
def c1rec : ChainRecord :=
  { status := "completed"
    start_time := 0
    current_task := none
    task_sequence := ["t"]
    completed_tasks := [("t",
      { completion_time := 5, result_status := "Y", result_data := none,
        attempts := 0 })]
    total_tasks := 1
    last_updated := 0
    attempts := []
    end_time := some 5
    error := none
    failed_task := none
    attempts_at_failure := none }

/-- `fail_chain` applied to the already-completed record of `c1terminal`. -/
def c1failed : Tracker := fail_chain c1terminal "c" "boom" "t" 9

/-- C1 counterexample: the record of chain `c` is terminal (status
`completed`, `end_time = 5`), yet a subsequent `fail_chain` call changes
its status to `failed`, its error to `boom` and its `end_time` to `9` —
`fail_chain` on an already-terminal record is not a no-op. -/
theorem C1_counterexample :
    (get_chain_status c1terminal "c").map ChainRecord.status =
      some "completed" ∧
    ((get_chain_status c1terminal "c").bind ChainRecord.end_time) = some 5 ∧
    (get_chain_status c1failed "c").map ChainRecord.status = some "failed" ∧
    ((get_chain_status c1failed "c").bind ChainRecord.end_time) = some 9 ∧
    ((get_chain_status c1failed "c").bind ChainRecord.error) = some "boom" := by
  decide

/-- C1 amended: `fail_chain` and `complete_task` check only that the chain
id is registered, not that the record is still running.  On a record that
already has an `end_time`, `fail_chain` still overwrites status, error and
end_time, and `complete_task` still rewrites the `completed_tasks` entry of
the given task.  Only calls with unregistered ids are no-ops. -/
theorem C1_amended (t : Tracker) (chain_id e f task : String)
    (r : ChainRecord) (res : CompResult) (now : Nat)
    (h : get_chain_status t chain_id = some r)
    (hterm : r.end_time.isSome) :
    (get_chain_status (fail_chain t chain_id e f now) chain_id).map
        ChainRecord.status = some "failed" ∧
    ((get_chain_status (fail_chain t chain_id e f now) chain_id).bind
        ChainRecord.end_time) = some now ∧
    ((get_chain_status (fail_chain t chain_id e f now) chain_id).bind
        ChainRecord.error) = some e ∧
    (get_chain_status (complete_task t chain_id task res now) chain_id).map
        (fun r2 => dictGet r2.completed_tasks task) =
      some (some { completion_time := now, result_status := res.status,
                   result_data := res.data,
                   attempts := (dictGet r.attempts task).getD 0 }) := by
  have h' : dictGet t chain_id = some r := h
  refine ⟨?_, ?_, ?_, ?_⟩
  · simp [get_chain_status, fail_chain, h', dictGet_dictSet_self]
  · simp [get_chain_status, fail_chain, h', dictGet_dictSet_self]
  · simp [get_chain_status, fail_chain, h', dictGet_dictSet_self]
  · simp [get_chain_status, complete_task, h', dictGet_dictSet_self,
      completeRec_completed_tasks, completedEntry]

/-- C1 amended, witnessed on the concrete terminal record `c1terminal`. -/
theorem C1_amended_witness :
    (get_chain_status c1failed "c").map ChainRecord.status =
      some "failed" ∧
    ((get_chain_status c1failed "c").bind ChainRecord.end_time) = some 9 ∧
    ((get_chain_status c1failed "c").bind ChainRecord.error) = some "boom" ∧
    (get_chain_status (complete_task c1terminal "c" "t"
        { status := "Y", data := none } 9) "c").map
        (fun r2 => dictGet r2.completed_tasks "t") =
      some (some { completion_time := 9, result_status := "Y",
                   result_data := none, attempts := 0 }) :=
  C1_amended c1terminal "c" "boom" "t" "t" c1rec
    { status := "Y", data := none } 9 (by decide) (by decide)

/-- C3 counterexample: for a freshly registered chain the status query
returns the stored record, whose dict keys are exactly the eight keys
written by `start_chain` — there is no computed `progress` field in the
snapshot. -/
theorem C3_counterexample :
    (get_chain_status (start_chain [] "c" ["a", "b"] 0) "c").map recordKeys =
      some ["status", "start_time", "current_task", "task_sequence",
            "completed_tasks", "total_tasks", "last_updated", "attempts"] ∧
    ((get_chain_status (start_chain [] "c" ["a", "b"] 0) "c").map
      (fun r => (recordKeys r).contains "progress")) = some false := by
  decide

/-- C3 amended: for every registered chain id the status route returns the
raw stored record — which carries `completed_tasks` and `total_tasks` but
no computed `progress` field — and for every unknown id it returns a 404
not-found signal. -/
theorem C3_amended (t : Tracker) (chain_id : String) :
    (∀ r, get_chain_status t chain_id = some r →
        get_chain_status_route t chain_id = Except.ok r ∧
        (recordKeys r).contains "progress" = false) ∧
    (get_chain_status t chain_id = none →
        get_chain_status_route t chain_id = Except.error 404) := by
  constructor
  · intro r h
    exact ⟨by simp [get_chain_status_route, h], progress_not_in_recordKeys r⟩
  · intro h
    simp [get_chain_status_route, h]

/-- C3 amended, witnessed on a registered and an unregistered id. -/
theorem C3_amended_witness :
    (get_chain_status_route (start_chain [] "c" ["a"] 0) "c" =
        Except.ok (freshRecord ["a"] 0) ∧
      (recordKeys (freshRecord ["a"] 0)).contains "progress" = false) ∧
    get_chain_status_route ([] : Tracker) "c" = Except.error 404 :=
  ⟨(C3_amended (start_chain [] "c" ["a"] 0) "c").1 (freshRecord ["a"] 0)
      (by decide),
   (C3_amended ([] : Tracker) "c").2 (by decide)⟩

/-- C9: calling `update_attempts`, `complete_task` or `fail_chain` with a
chain id that was never registered leaves the registry unchanged (each
method is guarded by a membership test, and all three are total — no error
is raised). -/
theorem C9_unregistered_noop (t : Tracker) (chain_id task_name e f : String)
    (res : CompResult) (now : Nat)
    (h : get_chain_status t chain_id = none) :
    update_attempts t chain_id task_name = t ∧
    complete_task t chain_id task_name res now = t ∧
    fail_chain t chain_id e f now = t := by
  have h' : dictGet t chain_id = none := h
  refine ⟨?_, ?_, ?_⟩ <;>
    simp [update_attempts, complete_task, fail_chain, h']

/-- C9 witnessed on the empty registry. -/
theorem C9_unregistered_noop_witness :
    update_attempts [] "c" "t" = ([] : Tracker) ∧
    complete_task [] "c" "t" { status := "Y", data := none } 0 =
      ([] : Tracker) ∧
    fail_chain [] "c" "e" "t" 0 = ([] : Tracker) :=
  C9_unregistered_noop [] "c" "t" "e" "t" { status := "Y", data := none } 0
    (by decide)

/-- C10: `start_chain` is an unconditional dict assignment — whatever was
registered under the id before (including a terminal record), afterwards
the registry holds a fresh `running` record with empty `completed_tasks`
and empty `attempts`; no uniqueness check is performed. -/
theorem C10_start_chain_overwrites (t : Tracker) (chain_id : String)
    (seq : List String) (now : Nat) :
    get_chain_status (start_chain t chain_id seq now) chain_id =
      some { status := "running", start_time := now, current_task := none,
             task_sequence := seq, completed_tasks := [],
             total_tasks := seq.length, last_updated := now, attempts := [],
             end_time := none, error := none, failed_task := none,
             attempts_at_failure := none } := by
  simp [get_chain_status, start_chain, dictGet_dictSet_self, freshRecord]

/-- C7: when a declared required parameter has no value in `ChainData` at
attempt time, the attempt raises before the work function is called and is
caught by the generic handler: exactly one attempt is consumed (the
registry counter grows by one), the work function is not invoked, the
chain status is untouched (not immediately fatal), and the loop goes on to
the next attempt exactly as for any other transient fault — the chain can
only fail later by exhausting the ceiling. -/
theorem C7_missing_input_is_retried (cfg : TaskConfig)
    (chain_id project_id : String) (n a : Nat) (s : ExecState)
    (hmiss : resolveParams cfg.required_params s.chain_data = none)
    (hreg : registered s chain_id) :
    ∃ s₁,
      runAttempts cfg chain_id project_id (n + 1) a s =
        runAttempts cfg chain_id project_id n (a + 1) s₁ ∧
      attemptsCount s₁ chain_id cfg.name =
        attemptsCount s chain_id cfg.name + 1 ∧
      invokedCount s₁ cfg.name = invokedCount s cfg.name ∧
      statusOf s₁ chain_id = statusOf s chain_id ∧
      s₁.chain_data = s.chain_data := by
  refine ⟨stepMissing cfg (stepAttempt cfg chain_id s), ?_, ?_, ?_, ?_, ?_⟩
  · simp only [runAttempts, stepAttempt_chain_data, hmiss]
  · exact attemptsIn_update_attempts_self s.tracker chain_id cfg.name hreg
  · rfl
  · exact statusIn_update_attempts s.tracker chain_id cfg.name chain_id
  · rfl

/-- Task used to witness C7: one required parameter that is never in
`ChainData`. -/
def c7task : TaskConfig :=
  { name := "t", func := fun _ => WorkOutcome.bareRes "Y",
    max_attempts := 2, required_params := ["x"] }

/-- C7 witnessed on a fresh one-task chain whose task needs a parameter
nobody produced. -/
theorem C7_missing_input_is_retried_witness :
    ∃ s₁,
      runAttempts c7task "c" "p" 2 0 (startState "c" ["t"] 0) =
        runAttempts c7task "c" "p" 1 1 s₁ ∧
      attemptsCount s₁ "c" c7task.name =
        attemptsCount (startState "c" ["t"] 0) "c" c7task.name + 1 ∧
      invokedCount s₁ c7task.name =
        invokedCount (startState "c" ["t"] 0) c7task.name ∧
      statusOf s₁ "c" = statusOf (startState "c" ["t"] 0) "c" ∧
      s₁.chain_data = (startState "c" ["t"] 0).chain_data :=
  C7_missing_input_is_retried c7task "c" "p" 1 0 (startState "c" ["t"] 0)
    (by decide) (by decide)

/-- Any property of the registry closed under the three mutator calls the
retry loop can make (`update_attempts` and, for this task's name,
`complete_task` and `fail_chain`) is an invariant of the whole loop. -/
theorem runAttempts_tracker_pres (cfg : TaskConfig) (cid pid : String)
    (P : Tracker → Prop)
    (hu : ∀ t, P t → P (update_attempts t cid cfg.name))
    (hc : ∀ t res now, P t → P (complete_task t cid cfg.name res now))
    (hf : ∀ t e now, P t → P (fail_chain t cid e cfg.name now)) :
    ∀ (fuel a : Nat) (s : ExecState), P s.tracker →
      P (runAttempts cfg cid pid fuel a s).2.tracker := by
  intro fuel
  induction fuel with
  | zero =>
      intro a s h
      simp only [runAttempts, stepAttempt_chain_data, stepAttempt_invoked,
        stepAttempt_cb_fired, stepInvoke_cb_fired, stepData_cb_fired,
        stepComplete_cb_fired]
      exact hf _ _ _ h
  | succ fuel ih =>
      intro a s h
      simp only [runAttempts, stepAttempt_chain_data, stepAttempt_invoked,
        stepAttempt_cb_fired, stepInvoke_cb_fired, stepData_cb_fired,
        stepComplete_cb_fired]
      cases hrp : resolveParams cfg.required_params s.chain_data with
      | none => exact ih _ _ (hu _ h)
      | some ps =>
          cases hfk : cfg.func ((dictGet s.invoked cfg.name).getD 0) with
          | raised => exact ih _ _ (hu _ h)
          | pairRes st data =>
              by_cases hst : st = "Y"
              · simp only [if_pos hst]
                cases data with
                | none =>
                    simp only [stepInvoke_cb_fired, stepAttempt_cb_fired]
                    cases hcb : cfg.on_complete with
                    | none => exact hc _ _ _ (hu _ h)
                    | some cb =>
                        by_cases hj :
                          cb ((dictGet s.cb_fired cfg.name).getD 0)
                        · simp only [if_pos hj]
                          exact ih _ _ (hc _ _ _ (hu _ h))
                        · simp only [if_neg hj]
                          exact hc _ _ _ (hu _ h)
                | some d =>
                    simp only [stepData_cb_fired, stepInvoke_cb_fired,
                      stepAttempt_cb_fired]
                    cases hcb : cfg.on_complete with
                    | none => exact hc _ _ _ (hu _ h)
                    | some cb =>
                        by_cases hj :
                          cb ((dictGet s.cb_fired cfg.name).getD 0)
                        · simp only [if_pos hj]
                          exact ih _ _ (hc _ _ _ (hu _ h))
                        · simp only [if_neg hj]
                          exact hc _ _ _ (hu _ h)
              · simp only [if_neg hst]
                exact ih _ _ (hu _ h)
          | bareRes st =>
              by_cases hst : st = "Y"
              · simp only [if_pos hst]
                cases hcb : cfg.on_complete with
                | none => exact hc _ _ _ (hu _ h)
                | some cb =>
                    by_cases hj : cb ((dictGet s.cb_fired cfg.name).getD 0)
                    · simp only [if_pos hj]
                      exact ih _ _ (hc _ _ _ (hu _ h))
                    · simp only [if_neg hj]
                      exact hc _ _ _ (hu _ h)
              · simp only [if_neg hst]
                exact ih _ _ (hu _ h)

/-- What `execute_task`'s loop can return, given a registered chain id:
either the failure dict — status `N`, the task's name, `a + fuel` attempts,
with the registry failed under the standard max-attempts message naming
the task — or a success dict with status `Y` and the task's name now among
the completed keys.  No other result shape exists. -/
theorem runAttempts_result (cfg : TaskConfig) (cid pid : String) :
    ∀ (fuel a : Nat) (s : ExecState), regIn s.tracker cid →
      ((runAttempts cfg cid pid fuel a s).1.status = "N" ∧
       (runAttempts cfg cid pid fuel a s).1.task = cfg.name ∧
       (runAttempts cfg cid pid fuel a s).1.attempts = a + fuel ∧
       statusIn (runAttempts cfg cid pid fuel a s).2.tracker cid =
         some "failed" ∧
       (dictGet (runAttempts cfg cid pid fuel a s).2.tracker cid).bind
           ChainRecord.error =
         some ("Task " ++ cfg.name ++ " failed after " ++
           toString (a + fuel) ++ " attempts") ∧
       (dictGet (runAttempts cfg cid pid fuel a s).2.tracker cid).bind
           ChainRecord.failed_task = some cfg.name) ∨
      ((runAttempts cfg cid pid fuel a s).1.status = "Y" ∧
       cfg.name ∈ keysIn (runAttempts cfg cid pid fuel a s).2.tracker cid) := by
  intro fuel
  induction fuel with
  | zero =>
      intro a s h
      simp only [runAttempts, stepAttempt_chain_data, stepAttempt_invoked,
        stepAttempt_cb_fired, stepInvoke_cb_fired, stepData_cb_fired,
        stepComplete_cb_fired]
      left
      obtain ⟨h1, h2, h3⟩ := fail_chain_fields s.tracker cid
        ("Task " ++ cfg.name ++ " failed after " ++ toString a ++ " attempts")
        cfg.name s.clock h
      exact ⟨by trivial, by trivial, by trivial, h1, by simpa using h2,
        by simpa using h3⟩
  | succ fuel ih =>
      intro a s h
      have e : a + 1 + fuel = a + (fuel + 1) := by omega
      simp only [runAttempts, stepAttempt_chain_data, stepAttempt_invoked,
        stepAttempt_cb_fired, stepInvoke_cb_fired, stepData_cb_fired,
        stepComplete_cb_fired]
      cases hrp : resolveParams cfg.required_params s.chain_data with
      | none => rw [← e]; exact ih _ _ (regIn_update_attempts _ _ _ _ h)
      | some ps =>
          cases hfk : cfg.func ((dictGet s.invoked cfg.name).getD 0) with
          | raised =>
              rw [← e]; exact ih _ _ (regIn_update_attempts _ _ _ _ h)
          | pairRes st data =>
              by_cases hst : st = "Y"
              · simp only [if_pos hst]
                cases data with
                | none =>
                    simp only [stepInvoke_cb_fired, stepAttempt_cb_fired]
                    cases hcb : cfg.on_complete with
                    | none =>
                        exact Or.inr ⟨by trivial, mem_keysIn_complete_task_self _
                          _ _ _ _ (regIn_update_attempts _ _ _ _ h)⟩
                    | some cb =>
                        by_cases hj :
                          cb ((dictGet s.cb_fired cfg.name).getD 0)
                        · simp only [if_pos hj]
                          rw [← e]
                          exact ih _ _ (regIn_complete_task _ _ _ _ _ _
                            (regIn_update_attempts _ _ _ _ h))
                        · simp only [if_neg hj]
                          exact Or.inr ⟨by trivial, mem_keysIn_complete_task_self _
                            _ _ _ _ (regIn_update_attempts _ _ _ _ h)⟩
                | some d =>
                    simp only [stepData_cb_fired, stepInvoke_cb_fired,
                      stepAttempt_cb_fired]
                    cases hcb : cfg.on_complete with
                    | none =>
                        exact Or.inr ⟨by trivial, mem_keysIn_complete_task_self _
                          _ _ _ _ (regIn_update_attempts _ _ _ _ h)⟩
                    | some cb =>
                        by_cases hj :
                          cb ((dictGet s.cb_fired cfg.name).getD 0)
                        · simp only [if_pos hj]
                          rw [← e]
                          exact ih _ _ (regIn_complete_task _ _ _ _ _ _
                            (regIn_update_attempts _ _ _ _ h))
                        · simp only [if_neg hj]
                          exact Or.inr ⟨by trivial, mem_keysIn_complete_task_self _
                            _ _ _ _ (regIn_update_attempts _ _ _ _ h)⟩
              · simp only [if_neg hst]
                rw [← e]; exact ih _ _ (regIn_update_attempts _ _ _ _ h)
          | bareRes st =>
              by_cases hst : st = "Y"
              · simp only [if_pos hst]
                cases hcb : cfg.on_complete with
                | none =>
                    exact Or.inr ⟨by trivial, mem_keysIn_complete_task_self _
                      _ _ _ _ (regIn_update_attempts _ _ _ _ h)⟩
                | some cb =>
                    by_cases hj : cb ((dictGet s.cb_fired cfg.name).getD 0)
                    · simp only [if_pos hj]
                      rw [← e]
                      exact ih _ _ (regIn_complete_task _ _ _ _ _ _
                        (regIn_update_attempts _ _ _ _ h))
                    · simp only [if_neg hj]
                      exact Or.inr ⟨by trivial, mem_keysIn_complete_task_self _
                        _ _ _ _ (regIn_update_attempts _ _ _ _ h)⟩
              · simp only [if_neg hst]
                rw [← e]; exact ih _ _ (regIn_update_attempts _ _ _ _ h)

/-! ### Counter equations of the step functions -/

theorem bumpCount_self (l : List (String × Nat)) (k : String) :
    (dictGet (bumpCount l k) k).getD 0 = (dictGet l k).getD 0 + 1 := by
  unfold bumpCount
  rw [dictGet_dictSet_self]
  rfl

theorem attemptsCount_stepAttempt (cfg : TaskConfig) (cid : String)
    (s : ExecState) (h : regIn s.tracker cid) :
    attemptsCount (stepAttempt cfg cid s) cid cfg.name =
      attemptsCount s cid cfg.name + 1 :=
  attemptsIn_update_attempts_self s.tracker cid cfg.name h

theorem attemptsCount_stepMissing (cfg : TaskConfig) (s : ExecState)
    (cid nm : String) :
    attemptsCount (stepMissing cfg s) cid nm = attemptsCount s cid nm := rfl

theorem attemptsCount_stepInvoke (cfg : TaskConfig) (s : ExecState)
    (cid nm : String) :
    attemptsCount (stepInvoke cfg s) cid nm = attemptsCount s cid nm := rfl

theorem attemptsCount_stepData (cfg : TaskConfig) (d : String)
    (s : ExecState) (cid nm : String) :
    attemptsCount (stepData cfg d s) cid nm = attemptsCount s cid nm := rfl

theorem attemptsCount_stepCb (cfg : TaskConfig) (s : ExecState)
    (cid nm : String) :
    attemptsCount (stepCb cfg s) cid nm = attemptsCount s cid nm := rfl

theorem attemptsCount_stepComplete (cfg : TaskConfig) (cid2 : String)
    (data : Option String) (s : ExecState) (cid nm : String) :
    attemptsCount (stepComplete cfg cid2 data s) cid nm =
      attemptsCount s cid nm :=
  attemptsIn_complete_task s.tracker cid2 cfg.name
    { status := "Y", data := data } s.clock cid nm

theorem attemptsCount_stepFail (cfg : TaskConfig) (cid2 : String)
    (attempts : Nat) (s : ExecState) (cid nm : String) :
    attemptsCount (stepFail cfg cid2 attempts s) cid nm =
      attemptsCount s cid nm :=
  attemptsIn_fail_chain s.tracker cid2
    ("Task " ++ cfg.name ++ " failed after " ++ toString attempts ++
      " attempts") cfg.name s.clock cid nm

theorem invokedCount_stepAttempt (cfg : TaskConfig) (cid : String)
    (s : ExecState) (nm : String) :
    invokedCount (stepAttempt cfg cid s) nm = invokedCount s nm := rfl

theorem invokedCount_stepMissing (cfg : TaskConfig) (s : ExecState)
    (nm : String) :
    invokedCount (stepMissing cfg s) nm = invokedCount s nm := rfl

theorem invokedCount_stepInvoke (cfg : TaskConfig) (s : ExecState) :
    invokedCount (stepInvoke cfg s) cfg.name = invokedCount s cfg.name + 1 :=
  bumpCount_self s.invoked cfg.name

theorem invokedCount_stepData (cfg : TaskConfig) (d : String)
    (s : ExecState) (nm : String) :
    invokedCount (stepData cfg d s) nm = invokedCount s nm := rfl

theorem invokedCount_stepComplete (cfg : TaskConfig) (cid : String)
    (data : Option String) (s : ExecState) (nm : String) :
    invokedCount (stepComplete cfg cid data s) nm = invokedCount s nm := rfl

theorem invokedCount_stepCb (cfg : TaskConfig) (s : ExecState) (nm : String) :
    invokedCount (stepCb cfg s) nm = invokedCount s nm := rfl

theorem invokedCount_stepFail (cfg : TaskConfig) (cid : String)
    (attempts : Nat) (s : ExecState) (nm : String) :
    invokedCount (stepFail cfg cid attempts s) nm = invokedCount s nm := rfl

theorem missingCount_stepAttempt (cfg : TaskConfig) (cid : String)
    (s : ExecState) (nm : String) :
    missingCount (stepAttempt cfg cid s) nm = missingCount s nm := rfl

theorem missingCount_stepMissing (cfg : TaskConfig) (s : ExecState) :
    missingCount (stepMissing cfg s) cfg.name =
      missingCount s cfg.name + 1 :=
  bumpCount_self s.missing_hits cfg.name

theorem missingCount_stepInvoke (cfg : TaskConfig) (s : ExecState)
    (nm : String) :
    missingCount (stepInvoke cfg s) nm = missingCount s nm := rfl

theorem missingCount_stepData (cfg : TaskConfig) (d : String)
    (s : ExecState) (nm : String) :
    missingCount (stepData cfg d s) nm = missingCount s nm := rfl

theorem missingCount_stepComplete (cfg : TaskConfig) (cid : String)
    (data : Option String) (s : ExecState) (nm : String) :
    missingCount (stepComplete cfg cid data s) nm = missingCount s nm := rfl

theorem missingCount_stepCb (cfg : TaskConfig) (s : ExecState) (nm : String) :
    missingCount (stepCb cfg s) nm = missingCount s nm := rfl

theorem missingCount_stepFail (cfg : TaskConfig) (cid : String)
    (attempts : Nat) (s : ExecState) (nm : String) :
    missingCount (stepFail cfg cid attempts s) nm = missingCount s nm := rfl

theorem cbCount_stepAttempt (cfg : TaskConfig) (cid : String)
    (s : ExecState) (nm : String) :
    cbCount (stepAttempt cfg cid s) nm = cbCount s nm := rfl

theorem cbCount_stepMissing (cfg : TaskConfig) (s : ExecState) (nm : String) :
    cbCount (stepMissing cfg s) nm = cbCount s nm := rfl

theorem cbCount_stepInvoke (cfg : TaskConfig) (s : ExecState) (nm : String) :
    cbCount (stepInvoke cfg s) nm = cbCount s nm := rfl

theorem cbCount_stepData (cfg : TaskConfig) (d : String) (s : ExecState)
    (nm : String) :
    cbCount (stepData cfg d s) nm = cbCount s nm := rfl

theorem cbCount_stepComplete (cfg : TaskConfig) (cid : String)
    (data : Option String) (s : ExecState) (nm : String) :
    cbCount (stepComplete cfg cid data s) nm = cbCount s nm := rfl

theorem cbCount_stepCb (cfg : TaskConfig) (s : ExecState) :
    cbCount (stepCb cfg s) cfg.name = cbCount s cfg.name + 1 :=
  bumpCount_self s.cb_fired cfg.name

theorem cbCount_stepFail (cfg : TaskConfig) (cid : String) (attempts : Nat)
    (s : ExecState) (nm : String) :
    cbCount (stepFail cfg cid attempts s) nm = cbCount s nm := rfl

theorem regIn_stepAttempt (cfg : TaskConfig) (cid : String) (s : ExecState)
    (cid' : String) (h : regIn s.tracker cid') :
    regIn (stepAttempt cfg cid s).tracker cid' :=
  regIn_update_attempts s.tracker cid cfg.name cid' h

theorem regIn_stepComplete (cfg : TaskConfig) (cid : String)
    (data : Option String) (s : ExecState) (cid' : String)
    (h : regIn s.tracker cid') :
    regIn (stepComplete cfg cid data s).tracker cid' :=
  regIn_complete_task s.tracker cid cfg.name
    { status := "Y", data := data } s.clock cid' h

/-- Registry attempt counters only grow, by exactly the number of attempt
iterations begun, and work invocations plus missing-input aborts account
for every one of those iterations: over one `execute_task` retry loop
there is a single `d ≥ 0` with `attempts += d` and
`invocations + missing-aborts += d`. -/
theorem runAttempts_counts (cfg : TaskConfig) (cid pid : String) :
    ∀ (fuel a : Nat) (s : ExecState), regIn s.tracker cid →
      ∃ d,
        attemptsCount (runAttempts cfg cid pid fuel a s).2 cid cfg.name =
          attemptsCount s cid cfg.name + d ∧
        invokedCount (runAttempts cfg cid pid fuel a s).2 cfg.name +
            missingCount (runAttempts cfg cid pid fuel a s).2 cfg.name =
          invokedCount s cfg.name + missingCount s cfg.name + d := by
  intro fuel
  induction fuel with
  | zero =>
      intro a s h
      refine ⟨0, ?_, ?_⟩
      · simp only [runAttempts]
        rw [attemptsCount_stepFail]
        rfl
      · simp only [runAttempts]
        rw [invokedCount_stepFail, missingCount_stepFail]
        rfl
  | succ fuel ih =>
      intro a s h
      simp only [runAttempts, stepAttempt_chain_data, stepAttempt_invoked,
        stepAttempt_cb_fired, stepInvoke_cb_fired, stepData_cb_fired,
        stepComplete_cb_fired]
      cases hrp : resolveParams cfg.required_params s.chain_data with
      | none =>
          obtain ⟨d, hA, hIM⟩ := ih (a + 1)
            (stepMissing cfg (stepAttempt cfg cid s))
            (regIn_stepAttempt cfg cid s cid h)
          refine ⟨d + 1, ?_, ?_⟩
          · rw [hA, attemptsCount_stepMissing,
              attemptsCount_stepAttempt cfg cid s h]
            omega
          · rw [hIM, invokedCount_stepMissing, invokedCount_stepAttempt,
              missingCount_stepMissing, missingCount_stepAttempt]
            omega
      | some ps =>
          cases hfk : cfg.func ((dictGet s.invoked cfg.name).getD 0) with
          | raised =>
              obtain ⟨d, hA, hIM⟩ := ih (a + 1)
                (stepInvoke cfg (stepAttempt cfg cid s))
                (regIn_stepAttempt cfg cid s cid h)
              refine ⟨d + 1, ?_, ?_⟩
              · rw [hA, attemptsCount_stepInvoke,
                  attemptsCount_stepAttempt cfg cid s h]
                omega
              · rw [hIM, invokedCount_stepInvoke, invokedCount_stepAttempt,
                  missingCount_stepInvoke, missingCount_stepAttempt]
                omega
          | pairRes st data =>
              by_cases hst : st = "Y"
              · simp only [if_pos hst]
                cases data with
                | none =>
                    simp only [stepInvoke_cb_fired, stepAttempt_cb_fired]
                    cases hcb : cfg.on_complete with
                    | none =>
                        refine ⟨1, ?_, ?_⟩
                        · rw [attemptsCount_stepComplete,
                            attemptsCount_stepInvoke,
                            attemptsCount_stepAttempt cfg cid s h]
                        · rw [invokedCount_stepComplete,
                            invokedCount_stepInvoke, invokedCount_stepAttempt,
                            missingCount_stepComplete, missingCount_stepInvoke,
                            missingCount_stepAttempt]
                          omega
                    | some cb =>
                        by_cases hj :
                          cb ((dictGet s.cb_fired cfg.name).getD 0)
                        · simp only [if_pos hj]
                          obtain ⟨d, hA, hIM⟩ := ih (a + 1)
                            (stepCb cfg (stepComplete cfg cid none
                              (stepInvoke cfg (stepAttempt cfg cid s))))
                            (regIn_stepComplete cfg cid none _ cid
                              (regIn_stepAttempt cfg cid s cid h))
                          refine ⟨d + 1, ?_, ?_⟩
                          · rw [hA, attemptsCount_stepCb,
                              attemptsCount_stepComplete,
                              attemptsCount_stepInvoke,
                              attemptsCount_stepAttempt cfg cid s h]
                            omega
                          · rw [hIM, invokedCount_stepCb,
                              invokedCount_stepComplete,
                              invokedCount_stepInvoke,
                              invokedCount_stepAttempt,
                              missingCount_stepCb, missingCount_stepComplete,
                              missingCount_stepInvoke,
                              missingCount_stepAttempt]
                            omega
                        · simp only [if_neg hj]
                          refine ⟨1, ?_, ?_⟩
                          · rw [attemptsCount_stepCb,
                              attemptsCount_stepComplete,
                              attemptsCount_stepInvoke,
                              attemptsCount_stepAttempt cfg cid s h]
                          · rw [invokedCount_stepCb,
                              invokedCount_stepComplete,
                              invokedCount_stepInvoke,
                              invokedCount_stepAttempt,
                              missingCount_stepCb, missingCount_stepComplete,
                              missingCount_stepInvoke,
                              missingCount_stepAttempt]
                            omega
                | some dd =>
                    simp only [stepData_cb_fired, stepInvoke_cb_fired,
                      stepAttempt_cb_fired]
                    cases hcb : cfg.on_complete with
                    | none =>
                        refine ⟨1, ?_, ?_⟩
                        · rw [attemptsCount_stepComplete,
                            attemptsCount_stepData, attemptsCount_stepInvoke,
                            attemptsCount_stepAttempt cfg cid s h]
                        · rw [invokedCount_stepComplete, invokedCount_stepData,
                            invokedCount_stepInvoke, invokedCount_stepAttempt,
                            missingCount_stepComplete, missingCount_stepData,
                            missingCount_stepInvoke, missingCount_stepAttempt]
                          omega
                    | some cb =>
                        by_cases hj :
                          cb ((dictGet s.cb_fired cfg.name).getD 0)
                        · simp only [if_pos hj]
                          obtain ⟨d, hA, hIM⟩ := ih (a + 1)
                            (stepCb cfg (stepComplete cfg cid (some dd)
                              (stepData cfg dd
                                (stepInvoke cfg (stepAttempt cfg cid s)))))
                            (regIn_stepComplete cfg cid (some dd) _ cid
                              (regIn_stepAttempt cfg cid s cid h))
                          refine ⟨d + 1, ?_, ?_⟩
                          · rw [hA, attemptsCount_stepCb,
                              attemptsCount_stepComplete,
                              attemptsCount_stepData,
                              attemptsCount_stepInvoke,
                              attemptsCount_stepAttempt cfg cid s h]
                            omega
                          · rw [hIM, invokedCount_stepCb,
                              invokedCount_stepComplete,
                              invokedCount_stepData, invokedCount_stepInvoke,
                              invokedCount_stepAttempt, missingCount_stepCb,
                              missingCount_stepComplete,
                              missingCount_stepData, missingCount_stepInvoke,
                              missingCount_stepAttempt]
                            omega
                        · simp only [if_neg hj]
                          refine ⟨1, ?_, ?_⟩
                          · rw [attemptsCount_stepCb,
                              attemptsCount_stepComplete,
                              attemptsCount_stepData,
                              attemptsCount_stepInvoke,
                              attemptsCount_stepAttempt cfg cid s h]
                          · rw [invokedCount_stepCb,
                              invokedCount_stepComplete,
                              invokedCount_stepData, invokedCount_stepInvoke,
                              invokedCount_stepAttempt, missingCount_stepCb,
                              missingCount_stepComplete,
                              missingCount_stepData, missingCount_stepInvoke,
                              missingCount_stepAttempt]
                            omega
              · simp only [if_neg hst]
                obtain ⟨d, hA, hIM⟩ := ih (a + 1)
                  (stepInvoke cfg (stepAttempt cfg cid s))
                  (regIn_stepAttempt cfg cid s cid h)
                refine ⟨d + 1, ?_, ?_⟩
                · rw [hA, attemptsCount_stepInvoke,
                    attemptsCount_stepAttempt cfg cid s h]
                  omega
                · rw [hIM, invokedCount_stepInvoke, invokedCount_stepAttempt,
                    missingCount_stepInvoke, missingCount_stepAttempt]
                  omega
          | bareRes st =>
              by_cases hst : st = "Y"
              · simp only [if_pos hst]
                cases hcb : cfg.on_complete with
                | none =>
                    refine ⟨1, ?_, ?_⟩
                    · rw [attemptsCount_stepComplete, attemptsCount_stepInvoke,
                        attemptsCount_stepAttempt cfg cid s h]
                    · rw [invokedCount_stepComplete, invokedCount_stepInvoke,
                        invokedCount_stepAttempt, missingCount_stepComplete,
                        missingCount_stepInvoke, missingCount_stepAttempt]
                      omega
                | some cb =>
                    by_cases hj : cb ((dictGet s.cb_fired cfg.name).getD 0)
                    · simp only [if_pos hj]
                      obtain ⟨d, hA, hIM⟩ := ih (a + 1)
                        (stepCb cfg (stepComplete cfg cid none
                          (stepInvoke cfg (stepAttempt cfg cid s))))
                        (regIn_stepComplete cfg cid none _ cid
                          (regIn_stepAttempt cfg cid s cid h))
                      refine ⟨d + 1, ?_, ?_⟩
                      · rw [hA, attemptsCount_stepCb,
                          attemptsCount_stepComplete, attemptsCount_stepInvoke,
                          attemptsCount_stepAttempt cfg cid s h]
                        omega
                      · rw [hIM, invokedCount_stepCb,
                          invokedCount_stepComplete, invokedCount_stepInvoke,
                          invokedCount_stepAttempt, missingCount_stepCb,
                          missingCount_stepComplete, missingCount_stepInvoke,
                          missingCount_stepAttempt]
                        omega
                    · simp only [if_neg hj]
                      refine ⟨1, ?_, ?_⟩
                      · rw [attemptsCount_stepCb, attemptsCount_stepComplete,
                          attemptsCount_stepInvoke,
                          attemptsCount_stepAttempt cfg cid s h]
                      · rw [invokedCount_stepCb, invokedCount_stepComplete,
                          invokedCount_stepInvoke, invokedCount_stepAttempt,
                          missingCount_stepCb, missingCount_stepComplete,
                          missingCount_stepInvoke, missingCount_stepAttempt]
                        omega
              · simp only [if_neg hst]
                obtain ⟨d, hA, hIM⟩ := ih (a + 1)
                  (stepInvoke cfg (stepAttempt cfg cid s))
                  (regIn_stepAttempt cfg cid s cid h)
                refine ⟨d + 1, ?_, ?_⟩
                · rw [hA, attemptsCount_stepInvoke,
                    attemptsCount_stepAttempt cfg cid s h]
                  omega
                · rw [hIM, invokedCount_stepInvoke, invokedCount_stepAttempt,
                    missingCount_stepInvoke, missingCount_stepAttempt]
                  omega

/-- Task used by the C4 counterexample and witness: its only required
parameter is never in `ChainData`, so its attempt aborts before the work
function is reached. -/
def c4task : TaskConfig :=
  { name := "t", func := fun _ => WorkOutcome.bareRes "Y",
    max_attempts := 1, required_params := ["x"] }

/-- C4 counterexample: `update_attempts` runs before the required
parameters are resolved (chain_tasks.py 110 vs 113-118), so after this
one-attempt task aborts on its missing parameter the registry counter
reads 1 while the work function was invoked 0 times — the counter does
not equal the number of work invocations. -/
theorem C4_counterexample :
    attemptsCount (execute_task c4task "p" "c"
      (startState "c" ["t"] 0)).2 "c" "t" = 1 ∧
    invokedCount (execute_task c4task "p" "c"
      (startState "c" ["t"] 0)).2 "t" = 0 := by
  decide

/-- C4 amended: over one `execute_task` run the registry attempt counter
is monotonically non-decreasing, and it grows by exactly the number of
attempt iterations begun — which equals the number of work invocations
plus the number of attempts that aborted on a missing required input.  It
equals the work-invocation count exactly when no attempt hit a missing
input. -/
theorem C4_amended (cfg : TaskConfig) (project_id chain_id : String)
    (s : ExecState) (h : registered s chain_id) :
    ∃ d,
      attemptsCount (execute_task cfg project_id chain_id s).2
          chain_id cfg.name =
        attemptsCount s chain_id cfg.name + d ∧
      invokedCount (execute_task cfg project_id chain_id s).2 cfg.name +
          missingCount (execute_task cfg project_id chain_id s).2 cfg.name =
        invokedCount s cfg.name + missingCount s cfg.name + d ∧
      attemptsCount s chain_id cfg.name ≤
        attemptsCount (execute_task cfg project_id chain_id s).2
          chain_id cfg.name := by
  obtain ⟨d, hA, hIM⟩ :=
    runAttempts_counts cfg chain_id project_id cfg.max_attempts 0 s h
  have hA2 : attemptsCount (execute_task cfg project_id chain_id s).2
      chain_id cfg.name = attemptsCount s chain_id cfg.name + d := hA
  have hIM2 : invokedCount (execute_task cfg project_id chain_id s).2
        cfg.name +
      missingCount (execute_task cfg project_id chain_id s).2 cfg.name =
      invokedCount s cfg.name + missingCount s cfg.name + d := hIM
  exact ⟨d, hA2, hIM2, by omega⟩

/-- C4 amended, witnessed on the concrete missing-input task. -/
theorem C4_amended_witness :
    ∃ d,
      attemptsCount (execute_task c4task "p" "c"
          (startState "c" ["t"] 0)).2 "c" c4task.name =
        attemptsCount (startState "c" ["t"] 0) "c" c4task.name + d ∧
      invokedCount (execute_task c4task "p" "c"
            (startState "c" ["t"] 0)).2 c4task.name +
          missingCount (execute_task c4task "p" "c"
            (startState "c" ["t"] 0)).2 c4task.name =
        invokedCount (startState "c" ["t"] 0) c4task.name +
          missingCount (startState "c" ["t"] 0) c4task.name + d ∧
      attemptsCount (startState "c" ["t"] 0) "c" c4task.name ≤
        attemptsCount (execute_task c4task "p" "c"
          (startState "c" ["t"] 0)).2 "c" c4task.name :=
  C4_amended c4task "p" "c" (startState "c" ["t"] 0) (by decide)

/-- When the configured `on_complete` callback never raises, the loop
fires it exactly once on the iteration whose work result is a success —
and then returns at once — and never fires it otherwise. -/
theorem runAttempts_cb (cfg : TaskConfig) (cid pid : String)
    (cb : Nat → Bool) (hcb : cfg.on_complete = some cb)
    (hnr : ∀ k, cb k = false) :
    ∀ (fuel a : Nat) (s : ExecState),
      cbCount (runAttempts cfg cid pid fuel a s).2 cfg.name =
        cbCount s cfg.name +
          (if (runAttempts cfg cid pid fuel a s).1.status = "Y" then 1
           else 0) := by
  intro fuel
  induction fuel with
  | zero =>
      intro a s
      simp only [runAttempts]
      rw [cbCount_stepFail, if_neg (by decide)]
      rfl
  | succ fuel ih =>
      intro a s
      simp only [runAttempts, stepAttempt_chain_data, stepAttempt_invoked,
        stepAttempt_cb_fired, stepInvoke_cb_fired, stepData_cb_fired,
        stepComplete_cb_fired, hcb]
      cases hrp : resolveParams cfg.required_params s.chain_data with
      | none =>
          rw [ih (a + 1) (stepMissing cfg (stepAttempt cfg cid s)),
            cbCount_stepMissing, cbCount_stepAttempt]
      | some ps =>
          cases hfk : cfg.func ((dictGet s.invoked cfg.name).getD 0) with
          | raised =>
              rw [ih (a + 1) (stepInvoke cfg (stepAttempt cfg cid s)),
                cbCount_stepInvoke, cbCount_stepAttempt]
          | pairRes st data =>
              by_cases hst : st = "Y"
              · simp only [if_pos hst]
                cases data with
                | none =>
                    simp only [stepInvoke_cb_fired, stepAttempt_cb_fired]
                    rw [if_neg (by simp [hnr]), if_pos rfl, cbCount_stepCb,
                      cbCount_stepComplete, cbCount_stepInvoke,
                      cbCount_stepAttempt]
                | some dd =>
                    simp only [stepData_cb_fired, stepInvoke_cb_fired,
                      stepAttempt_cb_fired]
                    rw [if_neg (by simp [hnr]), if_pos rfl, cbCount_stepCb,
                      cbCount_stepComplete, cbCount_stepData,
                      cbCount_stepInvoke, cbCount_stepAttempt]
              · simp only [if_neg hst]
                rw [ih (a + 1) (stepInvoke cfg (stepAttempt cfg cid s)),
                  cbCount_stepInvoke, cbCount_stepAttempt]
          | bareRes st =>
              by_cases hst : st = "Y"
              · simp only [if_pos hst]
                rw [if_neg (by simp [hnr]), if_pos rfl, cbCount_stepCb,
                  cbCount_stepComplete, cbCount_stepInvoke,
                  cbCount_stepAttempt]
              · simp only [if_neg hst]
                rw [ih (a + 1) (stepInvoke cfg (stepAttempt cfg cid s)),
                  cbCount_stepInvoke, cbCount_stepAttempt]

/-! ### Lemmas about the chain loop `execGo` -/

theorem execute_task_regIn (cfg : TaskConfig) (pid cid cid' : String)
    (s : ExecState) (h : regIn s.tracker cid') :
    regIn (execute_task cfg pid cid s).2.tracker cid' :=
  runAttempts_tracker_pres cfg cid pid (fun tr => regIn tr cid')
    (fun t ht => regIn_update_attempts t cid cfg.name cid' ht)
    (fun t res now ht => regIn_complete_task t cid cfg.name res now cid' ht)
    (fun t e now ht => regIn_fail_chain t cid e cfg.name now cid' ht)
    cfg.max_attempts 0 s h

theorem execGo_regIn (cid pid cid' : String) :
    ∀ (ts : List TaskConfig) (s : ExecState) (acc : List ResultDict),
      regIn s.tracker cid' →
      regIn (execGo cid pid ts s acc).2.1.tracker cid' := by
  intro ts
  induction ts with
  | nil => intro s acc h; exact h
  | cons t ts ih =>
      intro s acc h
      simp only [execGo]
      by_cases hN : (execute_task t pid cid s).1.status = "N"
      · simp only [if_pos hN]
        exact execute_task_regIn t pid cid cid' s h
      · simp only [if_neg hN]
        exact ih _ _ (execute_task_regIn t pid cid cid' s h)

theorem execGo_append_of_not_stopped (cid pid : String)
    (xs : List TaskConfig) :
    ∀ (ys : List TaskConfig) (s : ExecState) (acc rs : List ResultDict)
      (s1 : ExecState),
      execGo cid pid xs s acc = (rs, s1, false) →
      execGo cid pid (xs ++ ys) s acc = execGo cid pid ys s1 rs := by
  induction xs with
  | nil =>
      intro ys s acc rs s1 h
      simp only [execGo] at h
      injection h with h1 h23
      injection h23 with h2 h3
      subst h1
      subst h2
      simp only [List.nil_append]
  | cons t xs ih =>
      intro ys s acc rs s1 h
      simp only [execGo] at h ⊢
      by_cases hN : (execute_task t pid cid s).1.status = "N"
      · rw [if_pos hN] at h
        exact absurd (congrArg (fun p => p.2.2) h) (by simp)
      · rw [if_neg hN] at h ⊢
        exact ih ys _ _ rs s1 h

theorem execGo_results (cid pid : String) :
    ∀ (ts : List TaskConfig) (s : ExecState) (acc : List ResultDict),
      regIn s.tracker cid →
      ∀ x, x ∈ (execGo cid pid ts s acc).1 → x ∈ acc ∨ x.status = "Y" := by
  intro ts
  induction ts with
  | nil => intro s acc h x hx; exact Or.inl hx
  | cons t ts ih =>
      intro s acc h x hx
      simp only [execGo] at hx
      by_cases hN : (execute_task t pid cid s).1.status = "N"
      · rw [if_pos hN] at hx
        exact Or.inl hx
      · rw [if_neg hN] at hx
        rcases ih _ _ (execute_task_regIn t pid cid cid s h) x hx with hacc | hY
        · rcases List.mem_append.mp hacc with h1 | h2
          · exact Or.inl h1
          · refine Or.inr ?_
            rw [List.mem_singleton.mp h2]
            rcases runAttempts_result t cid pid t.max_attempts 0 s h with
              hL | hR
            · exact absurd hL.1 hN
            · exact hR.1
        · exact Or.inr hY

theorem keys_complete_task_cases (tr : Tracker) (cid nm : String)
    (res : CompResult) (now : Nat) (K : List String)
    (h1 : regIn tr cid) (hni : nm ∉ K)
    (h3 : keysIn tr cid = K ∨ keysIn tr cid = K ++ [nm]) :
    keysIn (complete_task tr cid nm res now) cid = K ∨
    keysIn (complete_task tr cid nm res now) cid = K ++ [nm] := by
  rw [keysIn_complete_task_self tr cid nm res now h1]
  rcases h3 with hk | hk
  · rw [hk, if_neg hni]
    exact Or.inr rfl
  · rw [hk, if_pos (by simp)]
    exact Or.inr rfl

/-- Through one `execute_task` run the registered task sequence is
unchanged and the completed keys either stay as they were or gain exactly
this task's name, appended at the end. -/
theorem execute_task_keys (t : TaskConfig) (pid cid : String)
    (s : ExecState) (K SEQ : List String)
    (h : regIn s.tracker cid) (hseq : seqIn s.tracker cid = SEQ)
    (hkeys : keysIn s.tracker cid = K) (hni : t.name ∉ K) :
    regIn (execute_task t pid cid s).2.tracker cid ∧
    seqIn (execute_task t pid cid s).2.tracker cid = SEQ ∧
    (keysIn (execute_task t pid cid s).2.tracker cid = K ∨
     keysIn (execute_task t pid cid s).2.tracker cid = K ++ [t.name]) :=
  runAttempts_tracker_pres t cid pid
    (fun tr => regIn tr cid ∧ seqIn tr cid = SEQ ∧
      (keysIn tr cid = K ∨ keysIn tr cid = K ++ [t.name]))
    (fun tr ht => ⟨regIn_update_attempts tr cid t.name cid ht.1,
      (seqIn_update_attempts tr cid t.name cid).trans ht.2.1,
      ht.2.2.imp
        (fun hk => (keysIn_update_attempts tr cid t.name cid).trans hk)
        (fun hk => (keysIn_update_attempts tr cid t.name cid).trans hk)⟩)
    (fun tr res now ht => ⟨regIn_complete_task tr cid t.name res now cid ht.1,
      (seqIn_complete_task tr cid t.name res now cid).trans ht.2.1,
      keys_complete_task_cases tr cid t.name res now K ht.1 hni ht.2.2⟩)
    (fun tr e now ht => ⟨regIn_fail_chain tr cid e t.name now cid ht.1,
      (seqIn_fail_chain tr cid e t.name now cid).trans ht.2.1,
      ht.2.2.imp
        (fun hk => (keysIn_fail_chain tr cid e t.name now cid).trans hk)
        (fun hk => (keysIn_fail_chain tr cid e t.name now cid).trans hk)⟩)
    t.max_attempts 0 s ⟨h, hseq, Or.inl hkeys⟩

/-- The chain loop keeps `completed_tasks` an ordered front segment of the
registered task sequence: if the sequence splits as the current completed
keys followed by the names of the tasks still to run (and a tail), then
after running any of those tasks the completed keys are still a front
segment of the (unchanged) sequence. -/
theorem execGo_invariant (cid pid : String) :
    ∀ (ts : List TaskConfig) (s : ExecState) (acc : List ResultDict)
      (tail : List String),
      regIn s.tracker cid →
      (seqIn s.tracker cid).Nodup →
      seqIn s.tracker cid =
        keysIn s.tracker cid ++ (ts.map TaskConfig.name ++ tail) →
      ∃ rest, seqIn (execGo cid pid ts s acc).2.1.tracker cid =
          keysIn (execGo cid pid ts s acc).2.1.tracker cid ++ rest := by
  intro ts
  induction ts with
  | nil =>
      intro s acc tail h hnd hseq
      exact ⟨tail, by simpa using hseq⟩
  | cons t ts ih =>
      intro s acc tail h hnd hseq
      have hni : t.name ∉ keysIn s.tracker cid := by
        intro hmem
        rw [hseq] at hnd
        have := (List.nodup_append.mp hnd).2.2
        exact this hmem (by simp)
      obtain ⟨hreg2, hseq2, hkeys2⟩ := execute_task_keys t pid cid s
        (keysIn s.tracker cid) (seqIn s.tracker cid) h rfl rfl hni
      simp only [execGo]
      by_cases hN : (execute_task t pid cid s).1.status = "N"
      · simp only [if_pos hN]
        rcases hkeys2 with hk | hk
        · exact ⟨t.name :: (ts.map TaskConfig.name ++ tail),
            by rw [hseq2, hk, hseq]; simp⟩
        · exact ⟨ts.map TaskConfig.name ++ tail,
            by rw [hseq2, hk, hseq]; simp⟩
      · simp only [if_neg hN]
        have hY : t.name ∈ keysIn (execute_task t pid cid s).2.tracker cid := by
          rcases runAttempts_result t cid pid t.max_attempts 0 s h with
            hL | hR
          · exact absurd hL.1 hN
          · exact hR.2
        have hk : keysIn (execute_task t pid cid s).2.tracker cid =
            keysIn s.tracker cid ++ [t.name] := by
          rcases hkeys2 with hk | hk
          · rw [hk] at hY
            exact absurd hY hni
          · exact hk
        refine ih (execute_task t pid cid s).2 (acc ++
          [(execute_task t pid cid s).1]) tail hreg2 ?_ ?_
        · rw [hseq2]; exact hnd
        · rw [hseq2, hk, hseq]
          simp

theorem startState_regIn (cid : String) (seq : List String) (now : Nat) :
    regIn (startState cid seq now).tracker cid := by
  unfold regIn startState start_chain
  rw [dictGet_dictSet_self]
  rfl

theorem startState_seqIn (cid : String) (seq : List String) (now : Nat) :
    seqIn (startState cid seq now).tracker cid = seq := by
  unfold seqIn startState start_chain
  rw [dictGet_dictSet_self]
  rfl

theorem startState_keysIn (cid : String) (seq : List String) (now : Nat) :
    keysIn (startState cid seq now).tracker cid = [] := by
  unfold keysIn startState start_chain
  rw [dictGet_dictSet_self]
  rfl

/-- C5: for a chain started over distinctly named tasks and driven by the
`execute_chain` loop, after any number of processed tasks (split the task
list as `ts1 ++ ts2` and run `ts1`) the keys of `completed_tasks`, in
insertion order, form an ordered front segment of `task_sequence`, and in
particular `completed_tasks` never has more entries than `task_sequence`. -/
theorem C5_completed_ordered_front (ts1 ts2 : List TaskConfig)
    (cid pid : String) (now : Nat)
    (hnd : ((ts1 ++ ts2).map TaskConfig.name).Nodup) :
    (∃ rest,
        seqOf (execGo cid pid ts1
            (startState cid ((ts1 ++ ts2).map TaskConfig.name) now)
            []).2.1 cid =
          completedKeys (execGo cid pid ts1
            (startState cid ((ts1 ++ ts2).map TaskConfig.name) now)
            []).2.1 cid ++ rest) ∧
    (completedKeys (execGo cid pid ts1
        (startState cid ((ts1 ++ ts2).map TaskConfig.name) now)
        []).2.1 cid).length ≤
      (seqOf (execGo cid pid ts1
        (startState cid ((ts1 ++ ts2).map TaskConfig.name) now)
        []).2.1 cid).length := by
  obtain ⟨rest, hrest⟩ := execGo_invariant cid pid ts1
    (startState cid ((ts1 ++ ts2).map TaskConfig.name) now) []
    (ts2.map TaskConfig.name)
    (startState_regIn cid ((ts1 ++ ts2).map TaskConfig.name) now)
    (by rw [startState_seqIn]; exact hnd)
    (by rw [startState_seqIn, startState_keysIn]; simp)
  refine ⟨⟨rest, hrest⟩, ?_⟩
  have : seqOf (execGo cid pid ts1
      (startState cid ((ts1 ++ ts2).map TaskConfig.name) now) []).2.1 cid =
      completedKeys (execGo cid pid ts1
        (startState cid ((ts1 ++ ts2).map TaskConfig.name) now)
        []).2.1 cid ++ rest := hrest
  rw [this, List.length_append]
  omega

/-- First task of the C5 witness chain: succeeds at once. -/
def c5taskA : TaskConfig :=
  { name := "a", func := fun _ => WorkOutcome.pairRes "Y" (some "va"),
    max_attempts := 3 }

/-- Second task of the C5 witness chain: never succeeds. -/
def c5taskB : TaskConfig :=
  { name := "b", func := fun _ => WorkOutcome.bareRes "N",
    max_attempts := 2 }

/-- C5 witnessed after running the first task of a concrete two-task
chain. -/
theorem C5_completed_ordered_front_witness :
    (∃ rest,
        seqOf (execGo "c" "p" [c5taskA]
            (startState "c" (([c5taskA] ++ [c5taskB]).map TaskConfig.name) 0)
            []).2.1 "c" =
          completedKeys (execGo "c" "p" [c5taskA]
            (startState "c" (([c5taskA] ++ [c5taskB]).map TaskConfig.name) 0)
            []).2.1 "c" ++ rest) ∧
    (completedKeys (execGo "c" "p" [c5taskA]
        (startState "c" (([c5taskA] ++ [c5taskB]).map TaskConfig.name) 0)
        []).2.1 "c").length ≤
      (seqOf (execGo "c" "p" [c5taskA]
        (startState "c" (([c5taskA] ++ [c5taskB]).map TaskConfig.name) 0)
        []).2.1 "c").length :=
  C5_completed_ordered_front [c5taskA] [c5taskB] "c" "p" 0 (by decide)

/-- C6: when a task exhausts `max_attempts`, `fail_chain` records a
failed status with the standard message naming that task, the chain loop
stops — the returned state is exactly the state right after that task, so
no later task runs — and `execute_chain` returns exactly the successful
results accumulated before the failure (all of status Y; the empty list
when the very first task fails). -/
theorem C6_retry_exhaustion (pre post : List TaskConfig) (t : TaskConfig)
    (cid pid : String) (s s1 : ExecState) (rs : List ResultDict)
    (hreg : registered s cid)
    (hpre : execGo cid pid pre s [] = (rs, s1, false))
    (hN : (execute_task t pid cid s1).1.status = "N") :
    execute_chain (pre ++ t :: post) cid pid s =
      (rs, (execute_task t pid cid s1).2) ∧
    statusIn (execute_task t pid cid s1).2.tracker cid = some "failed" ∧
    (dictGet (execute_task t pid cid s1).2.tracker cid).bind
        ChainRecord.error =
      some ("Task " ++ t.name ++ " failed after " ++
        toString t.max_attempts ++ " attempts") ∧
    (dictGet (execute_task t pid cid s1).2.tracker cid).bind
        ChainRecord.failed_task = some t.name ∧
    ∀ x ∈ rs, x.status = "Y" := by
  have hreg1 : regIn s1.tracker cid := by
    have h2 := execGo_regIn cid pid cid pre s [] hreg
    rw [hpre] at h2
    exact h2
  have hchain : execGo cid pid (pre ++ t :: post) s [] =
      (rs, (execute_task t pid cid s1).2, true) := by
    rw [execGo_append_of_not_stopped cid pid pre (t :: post) s [] rs s1 hpre]
    simp only [execGo, if_pos hN]
  rcases runAttempts_result t cid pid t.max_attempts 0 s1 hreg1 with hL | hR
  · obtain ⟨_, _, _, hstat, herr, hfail⟩ := hL
    rw [Nat.zero_add] at herr
    refine ⟨?_, hstat, herr, hfail, ?_⟩
    · unfold execute_chain
      rw [hchain]
    · intro x hx
      rcases execGo_results cid pid pre s [] hreg x
          (by rw [hpre]; exact hx) with habs | hY
      · exact absurd habs (List.not_mem_nil x)
      · exact hY
  · have hY : (execute_task t pid cid s1).1.status = "Y" := hR.1
    rw [hY] at hN
    exact absurd hN (by decide)

/-- The exhausting task of the C6 witness: always returns N. -/
def c6fail : TaskConfig :=
  { name := "t", func := fun _ => WorkOutcome.bareRes "N",
    max_attempts := 2 }

/-- A task after the failing one in the C6 witness chain. -/
def c6post : TaskConfig :=
  { name := "u", func := fun _ => WorkOutcome.bareRes "Y",
    max_attempts := 1 }

/-- C6 witnessed on a chain whose very first task exhausts its attempts:
the chain returns the empty result list and the registry records the
standard message naming the task. -/
theorem C6_retry_exhaustion_witness :
    execute_chain [c6fail, c6post] "c" "p" (startState "c" ["t", "u"] 0) =
      ([], (execute_task c6fail "p" "c" (startState "c" ["t", "u"] 0)).2) ∧
    statusIn (execute_task c6fail "p" "c"
        (startState "c" ["t", "u"] 0)).2.tracker "c" = some "failed" ∧
    (dictGet (execute_task c6fail "p" "c"
        (startState "c" ["t", "u"] 0)).2.tracker "c").bind
        ChainRecord.error =
      some ("Task " ++ c6fail.name ++ " failed after " ++
        toString c6fail.max_attempts ++ " attempts") ∧
    (dictGet (execute_task c6fail "p" "c"
        (startState "c" ["t", "u"] 0)).2.tracker "c").bind
        ChainRecord.failed_task = some c6fail.name :=
  have h := C6_retry_exhaustion [] [c6post] c6fail "c" "p"
    (startState "c" ["t", "u"] 0) (startState "c" ["t", "u"] 0) []
    (by decide) rfl (by decide)
  ⟨h.1, h.2.1, h.2.2.1, h.2.2.2.1⟩

/-- Task used by the C8 counterexample: it always succeeds, and its
`on_complete` callback raises on its first invocation (and only then). -/
def c8task : TaskConfig :=
  { name := "t", func := fun _ => WorkOutcome.pairRes "Y" (some "d"),
    max_attempts := 2, on_complete := some (fun k => k == 0) }

/-- C8 counterexample: the callback is invoked inside the `try` block
(chain_tasks.py 136-137 within 112-160), so when it raises, the raise is
treated as a failed attempt and the loop retries: the work succeeds again
and the callback fires a second time.  Here the task succeeds and its
callback fires twice in one chain — not at most once. -/
theorem C8_counterexample :
    cbCount (execute_task c8task "p" "c"
      (startState "c" ["t"] 0)).2 "t" = 2 ∧
    (execute_task c8task "p" "c" (startState "c" ["t"] 0)).1.status = "Y" := by
  decide

/-- C8 amended: the callback fires only after a successful work result;
when the callback never raises it fires exactly once per `execute_task`
run for a task that succeeds and never for one that fails (a raising
callback, however, is retried and may fire again — see the
counterexample). -/
theorem C8_amended (cfg : TaskConfig) (project_id chain_id : String)
    (s : ExecState) (cb : Nat → Bool) (hcb : cfg.on_complete = some cb)
    (hnr : ∀ k, cb k = false) :
    cbCount (execute_task cfg project_id chain_id s).2 cfg.name =
      cbCount s cfg.name +
        (if (execute_task cfg project_id chain_id s).1.status = "Y" then 1
         else 0) :=
  runAttempts_cb cfg chain_id project_id cb hcb hnr cfg.max_attempts 0 s

/-- Task used by the C8 witness: a never-raising callback. -/
def c8good : TaskConfig :=
  { name := "t", func := fun _ => WorkOutcome.bareRes "Y",
    max_attempts := 3, on_complete := some (fun _ => false) }

/-- C8 amended, witnessed on a succeeding task with a never-raising
callback: it fires exactly once. -/
theorem C8_amended_witness :
    cbCount (execute_task c8good "p" "c"
        (startState "c" ["t"] 0)).2 c8good.name =
      cbCount (startState "c" ["t"] 0) c8good.name +
        (if (execute_task c8good "p" "c"
            (startState "c" ["t"] 0)).1.status = "Y" then 1
         else 0) :=
  C8_amended c8good "p" "c" (startState "c" ["t"] 0) (fun _ => false) rfl
    (fun _ => rfl)

/-! ### Chain-level deadline (spec section 4.2 step 5, section 5)

`main.py` decorates its route with `ChainedAsyncTasks([...], timeout=300,
chain_tracker=...)`, a polling-style executor with a chain-level deadline
imported from `chain_tasks`; that class is not present in the source tree
(the `chain_tasks.py` provided defines only the untimed `ChainedTasks`).
The deadline behaviour is therefore modelled from the spec. -/

/-- Modelled from the spec: the timeout-specific error recorded when the
chain deadline elapses, naming the task active at expiry. -/
def timeoutMsg (task_name : String) : String :=
  "Chain timeout exceeded during task " ++ task_name

/-- Modelled from the spec: the polling-variant task configuration used by
the missing `ChainedAsyncTasks` (main.py 46-63) — a name, a success
predicate over the polled status (an oracle over poll rounds), a poll
interval and a retry ceiling. -/
structure PollTask where
  name : String
  poll : Nat → Bool
  check_interval : Nat := 5
  max_retries : Nat := 15

/-- Outcome of one task inside the deadline-wrapped executor. -/
inductive PollStep where
  | ok : PollStep
  | exhausted : PollStep
  | timedOut : PollStep
deriving DecidableEq, Repr

/-- Modelled from the spec: one task's polling loop under the chain
deadline.  Each poll suspends for `check_interval`; if that suspension
would cross the deadline it is cancelled at the deadline instead and
`fail_chain` records the timeout error naming this task; a satisfied
predicate completes the task; an exhausted retry ceiling fails the chain
with a max-retries message. -/
def pollLoop (t : PollTask) (chain_id : String) (deadline : Nat) :
    Nat → Nat → Nat → Tracker → PollStep × Tracker × Nat
  | 0, _, clock, tr =>
      (PollStep.exhausted,
       fail_chain tr chain_id
         ("Task " ++ t.name ++ " exceeded max retries") t.name clock,
       clock)
  | fuel + 1, k, clock, tr =>
      if deadline < clock + t.check_interval then
        (PollStep.timedOut,
         fail_chain tr chain_id (timeoutMsg t.name) t.name deadline,
         deadline)
      else
        if t.poll k then
          (PollStep.ok,
           complete_task tr chain_id t.name { status := "Y", data := none }
             (clock + t.check_interval),
           clock + t.check_interval)
        else
          pollLoop t chain_id deadline fuel (k + 1)
            (clock + t.check_interval) tr

/-- Modelled from the spec: the deadline-wrapped multi-task execution of
the missing `ChainedAsyncTasks.execute_chain`.  Returns the name of the
task active at expiry when the deadline elapsed, the final registry, and
the final clock. -/
def runTimedChain (chain_id : String) (deadline : Nat) :
    List PollTask → Tracker → Nat → Option String × Tracker × Nat
  | [], tr, clock => (none, tr, clock)
  | t :: ts, tr, clock =>
      match pollLoop t chain_id deadline t.max_retries 0 clock tr with
      | (PollStep.ok, tr2, c2) => runTimedChain chain_id deadline ts tr2 c2
      | (PollStep.exhausted, tr2, c2) => (none, tr2, c2)
      | (PollStep.timedOut, tr2, c2) => (some t.name, tr2, c2)

theorem pollLoop_spec (t : PollTask) (cid : String) (deadline : Nat) :
    ∀ (fuel k clock : Nat) (tr : Tracker),
      regIn tr cid → clock ≤ deadline →
      (pollLoop t cid deadline fuel k clock tr).2.2 ≤ deadline ∧
      regIn (pollLoop t cid deadline fuel k clock tr).2.1 cid ∧
      ((pollLoop t cid deadline fuel k clock tr).1 = PollStep.timedOut →
        statusIn (pollLoop t cid deadline fuel k clock tr).2.1 cid =
          some "failed" ∧
        (dictGet (pollLoop t cid deadline fuel k clock tr).2.1 cid).bind
          ChainRecord.error = some (timeoutMsg t.name) ∧
        (dictGet (pollLoop t cid deadline fuel k clock tr).2.1 cid).bind
          ChainRecord.failed_task = some t.name) := by
  intro fuel
  induction fuel with
  | zero =>
      intro k clock tr h hc
      simp only [pollLoop]
      refine ⟨hc, regIn_fail_chain _ _ _ _ _ _ h, ?_⟩
      intro habs
      exact absurd habs (by decide)
  | succ fuel ih =>
      intro k clock tr h hc
      simp only [pollLoop]
      by_cases hd : deadline < clock + t.check_interval
      · simp only [if_pos hd]
        obtain ⟨h1, h2, h3⟩ := fail_chain_fields tr cid (timeoutMsg t.name)
          t.name deadline h
        exact ⟨Nat.le_refl deadline, regIn_fail_chain _ _ _ _ _ _ h,
          fun _ => ⟨h1, h2, h3⟩⟩
      · simp only [if_neg hd]
        have hle : clock + t.check_interval ≤ deadline := Nat.le_of_not_lt hd
        by_cases hp : t.poll k
        · simp only [if_pos hp]
          refine ⟨hle, regIn_complete_task _ _ _ _ _ _ h, ?_⟩
          intro habs
          exact absurd habs (by decide)
        · simp only [if_neg hp]
          exact ih (k + 1) (clock + t.check_interval) tr h hle

/-- C2 (spec-modelled): with a chain-level deadline configured, no poll
suspension runs past the deadline — the final clock never exceeds it —
and whenever the deadline elapses during execution the run aborts naming
the task active at expiry, `fail_chain` records the timeout-specific
error naming that task, and the chain is left in status `failed`. -/
theorem C2_deadline_aborts (cid : String) (deadline : Nat) :
    ∀ (ts : List PollTask) (tr : Tracker) (clock : Nat),
      regIn tr cid → clock ≤ deadline →
      (runTimedChain cid deadline ts tr clock).2.2 ≤ deadline ∧
      (∀ nm, (runTimedChain cid deadline ts tr clock).1 = some nm →
        statusIn (runTimedChain cid deadline ts tr clock).2.1 cid =
          some "failed" ∧
        (dictGet (runTimedChain cid deadline ts tr clock).2.1 cid).bind
          ChainRecord.error = some (timeoutMsg nm) ∧
        (dictGet (runTimedChain cid deadline ts tr clock).2.1 cid).bind
          ChainRecord.failed_task = some nm) := by
  intro ts
  induction ts with
  | nil =>
      intro tr clock h hc
      refine ⟨hc, ?_⟩
      intro nm habs
      exact absurd habs (by simp [runTimedChain])
  | cons t ts ih =>
      intro tr clock h hc
      obtain ⟨hclk, hreg2, htmo⟩ :=
        pollLoop_spec t cid deadline t.max_retries 0 clock tr h hc
      rcases hstep : pollLoop t cid deadline t.max_retries 0 clock tr with
        ⟨step, tr2, c2⟩
      rw [hstep] at hclk hreg2 htmo
      cases step with
      | ok =>
          simp only [runTimedChain, hstep]
          exact ih tr2 c2 hreg2 hclk
      | exhausted =>
          simp only [runTimedChain, hstep]
          refine ⟨hclk, ?_⟩
          intro nm habs
          exact absurd habs (by simp)
      | timedOut =>
          simp only [runTimedChain, hstep]
          obtain ⟨h1, h2, h3⟩ := htmo rfl
          refine ⟨hclk, ?_⟩
          intro nm hnm
          injection hnm with hnm
          subst hnm
          exact ⟨h1, h2, h3⟩

/-- The C2 witness task: its status poll never satisfies the predicate. -/
def c2poll : PollTask :=
  { name := "t", poll := fun _ => false, check_interval := 5,
    max_retries := 15 }

/-- The registry of the C2 witness chain before execution. -/
def c2tracker : Tracker := start_chain [] "c" ["t"] 0

/-- C2 witnessed on a one-task chain whose deadline (12) elapses during
the third poll suspension: the clock is cut at the deadline, the task
active at expiry is named in the timeout error, and the chain is failed. -/
theorem C2_deadline_aborts_witness :
    (runTimedChain "c" 12 [c2poll] c2tracker 0).2.2 ≤ 12 ∧
    statusIn (runTimedChain "c" 12 [c2poll] c2tracker 0).2.1 "c" =
      some "failed" ∧
    (dictGet (runTimedChain "c" 12 [c2poll] c2tracker 0).2.1 "c").bind
      ChainRecord.error = some (timeoutMsg "t") ∧
    (dictGet (runTimedChain "c" 12 [c2poll] c2tracker 0).2.1 "c").bind
      ChainRecord.failed_task = some "t" :=
  have h := C2_deadline_aborts "c" 12 [c2poll] c2tracker 0 (by decide)
    (by decide)
  ⟨h.1, (h.2 "t" (by decide)).1, (h.2 "t" (by decide)).2.1,
    (h.2 "t" (by decide)).2.2⟩

end OnboardAsync
